import Mathlib

/-!
Shallow embedding of the ESP32 remote pin-controller firmware
(command parser, pin state store, command executor, watchdog supervisor),
with theorems checking the natural-language specification against it.

Sources embedded: `src/PinController.cpp`, `src/CommandParser.cpp`,
`src/NetworkServer.cpp` / `src/SerialCommandHandler.cpp` (shared command
switch), `src/WatchdogManager.cpp`, `include/Config.h`.
-/

set_option linter.unusedVariables false

namespace ESPRemote

/-! ## Association-list model of `std::map<int, V>`

`mapFind` models `m.find(k)` (no insertion); `mapInsert` models
`m[k] = v` assignment; `mapIndex` models the read `m[k]` through
`operator[]`, which default-inserts when the key is absent and otherwise
returns the stored value with the map unchanged. -/

def mapFind {α : Type} (m : List (Int × α)) (k : Int) : Option α :=
  match m with
  | [] => none
  | (k1, v) :: rest => if k1 = k then some v else mapFind rest k

def mapInsert {α : Type} (m : List (Int × α)) (k : Int) (v : α) : List (Int × α) :=
  match m with
  | [] => [(k, v)]
  | (k1, v1) :: rest => if k1 = k then (k, v) :: rest else (k1, v1) :: mapInsert rest k v

def mapIndex {α : Type} (m : List (Int × α)) (k : Int) (d : α) : α × List (Int × α) :=
  match mapFind m k with
  | some v => (v, m)
  | none => (d, mapInsert m k d)

theorem mapFind_mapInsert {α : Type} (m : List (Int × α)) (k k1 : Int) (v : α) :
    mapFind (mapInsert m k v) k1 = if k = k1 then some v else mapFind m k1 := by
  induction m with
  | nil => simp [mapInsert, mapFind]
  | cons hd tl ih =>
    obtain ⟨k2, v2⟩ := hd
    by_cases h2 : k2 = k
    · subst h2
      by_cases h1 : k2 = k1 <;> simp [mapInsert, mapFind, h1]
    · by_cases h1 : k2 = k1
      · subst h1
        simp [mapInsert, mapFind, h2]
        rw [if_neg (fun h => h2 h.symm)]
      · simp [mapInsert, mapFind, h2, h1, ih]

theorem mapIndex_of_find {α : Type} (m : List (Int × α)) (k : Int) (d v : α)
    (h : mapFind m k = some v) : mapIndex m k d = (v, m) := by
  simp [mapIndex, h]

theorem mapIndex_of_none {α : Type} (m : List (Int × α)) (k : Int) (d : α)
    (h : mapFind m k = none) : mapIndex m k d = (d, mapInsert m k d) := by
  simp [mapIndex, h]

/-! ## Configuration (`include/Config.h`) -/

def SAFE_PINS : List Int := [4, 5, 12, 13, 14, 15, 16, 17, 18, 19, 21, 22, 23, 25, 26, 27, 32, 33]

def MAX_CONSECUTIVE_ERRORS : Nat := 10

def ERROR_COOLDOWN_PERIOD : Nat := 5000

def FEED_INTERVAL : Nat := 1000

/-! ## Pin state store (`PinController.cpp`) -/

inductive PinMode
  | DIGITAL_OUTPUT
  | PWM_OUTPUT
  | DIGITAL_INPUT
  | NOT_CONFIGURED
deriving DecidableEq, Repr

/-- `PinState()` default constructor: `NOT_CONFIGURED`, value 0, not initialized. -/
structure PinState where
  mode : PinMode := PinMode.NOT_CONFIGURED
  value : Int := 0
  isInitialized : Bool := false
deriving DecidableEq, Repr

/-- Hardware side effects emitted by the pin store (Arduino / LEDC calls). -/
inductive HWAction
  | pinModeOutput (pin : Int)
  | pinModeInput (pin : Int)
  | digitalWrite (pin value : Int)
  | digitalRead (pin : Int)
  | ledcSetup (channel freq res : Int)
  | ledcAttachPin (pin channel : Int)
  | ledcWrite (channel value : Int)
deriving DecidableEq, Repr

/-- The mutable state of `PinController`: `_pinStates`, `_pinToPWMChannel`,
`_nextPWMChannel`. -/
structure PinController where
  pinStates : List (Int × PinState) := []
  pinToPWMChannel : List (Int × Int) := []
  nextPWMChannel : Int := 0
deriving DecidableEq, Repr

def emptyController : PinController := {}

/-- `PinController::isValidPin`: linear scan of `SAFE_PINS`. -/
def isValidPin (pin : Int) : Bool :=
  SAFE_PINS.any (fun p => p == pin)

/-- `PinController::configureDigitalOutput`: `pinMode(pin, OUTPUT)`,
`digitalWrite(pin, LOW)`, then set the record to an initialized
DIGITAL_OUTPUT with value 0. Always returns true. -/
def PinController.configureDigitalOutput (s : PinController) (pin : Int) :
    Bool × PinController × List HWAction :=
  let newState : PinState := { mode := PinMode.DIGITAL_OUTPUT, value := 0, isInitialized := true }
  (true,
   { s with pinStates := mapInsert s.pinStates pin newState },
   [HWAction.pinModeOutput pin, HWAction.digitalWrite pin 0])

/-- `PinController::configurePWMOutput`: fails when `_nextPWMChannel >= 16`;
otherwise takes `channel = _nextPWMChannel++`, performs the LEDC setup, sets
the record to an initialized PWM_OUTPUT with value 0, and records
`_pinToPWMChannel[pin] = channel`. -/
def PinController.configurePWMOutput (s : PinController) (pin : Int) :
    Bool × PinController × List HWAction :=
  if s.nextPWMChannel ≥ 16 then (false, s, [])
  else
    let channel := s.nextPWMChannel
    let newState : PinState := { mode := PinMode.PWM_OUTPUT, value := 0, isInitialized := true }
    (true,
     { pinStates := mapInsert s.pinStates pin newState,
       pinToPWMChannel := mapInsert s.pinToPWMChannel pin channel,
       nextPWMChannel := channel + 1 },
     [HWAction.ledcSetup channel 5000 8, HWAction.ledcAttachPin pin channel,
      HWAction.ledcWrite channel 0])

/-- Tail of `PinController::setDigital` after configuration:
`digitalWrite(pin, value); state.value = value; return true;` (`state` is a
reference into `_pinStates[pin]`). -/
def setDigitalFinish (s : PinController) (pin value : Int) (acts : List HWAction) :
    Bool × PinController × List HWAction :=
  let st := (mapFind s.pinStates pin).getD {}
  (true,
   { s with pinStates := mapInsert s.pinStates pin ({ st with value := value }) },
   acts ++ [HWAction.digitalWrite pin value])

/-- `PinController::setDigital`. Note: `PinState &state = _pinStates[pin]`
uses `operator[]`, which default-inserts when the pin has no record. -/
def PinController.setDigital (s : PinController) (pin value : Int) :
    Bool × PinController × List HWAction :=
  if ¬ isValidPin pin then (false, s, [])
  else if value ≠ 0 ∧ value ≠ 1 then (false, s, [])
  else
    let p1 := mapIndex s.pinStates pin {}
    let state := p1.1
    let s1 : PinController := { s with pinStates := p1.2 }
    if ¬ state.isInitialized ∨ state.mode ≠ PinMode.DIGITAL_OUTPUT then
      let r := s1.configureDigitalOutput pin
      if r.1 then setDigitalFinish r.2.1 pin value r.2.2 else (false, r.2.1, r.2.2)
    else
      setDigitalFinish s1 pin value []

/-- `PinController::getDigital`. The environment `hw` gives the level
`digitalRead` would report on each pin. When the pin has a record the code
re-reads it through `operator[]`; when the record is not an initialized
DIGITAL_OUTPUT it falls through to `pinMode(pin, INPUT); digitalRead(pin)`. -/
def PinController.getDigital (s : PinController) (hw : Int → Bool) (pin : Int) :
    Int × PinController × List HWAction :=
  if ¬ isValidPin pin then (-1, s, [])
  else
    match mapFind s.pinStates pin with
    | some _ =>
      let p1 := mapIndex s.pinStates pin {}
      let state := p1.1
      let s1 : PinController := { s with pinStates := p1.2 }
      if state.isInitialized ∧ state.mode = PinMode.DIGITAL_OUTPUT then
        (state.value, s1, [])
      else
        ((if hw pin then 1 else 0), s1, [HWAction.pinModeInput pin, HWAction.digitalRead pin])
    | none =>
      ((if hw pin then 1 else 0), s, [HWAction.pinModeInput pin, HWAction.digitalRead pin])

/-- `PinController::toggle`: read via `getDigital`, fail on a negative read,
else `setDigital(pin, currentValue == 0 ? 1 : 0)`. -/
def PinController.toggle (s : PinController) (hw : Int → Bool) (pin : Int) :
    Bool × PinController × List HWAction :=
  if ¬ isValidPin pin then (false, s, [])
  else
    let r1 := s.getDigital hw pin
    let currentValue := r1.1
    let s1 := r1.2.1
    let a1 := r1.2.2
    if currentValue < 0 then (false, s1, a1)
    else
      let r2 := s1.setDigital pin (if currentValue = 0 then 1 else 0)
      (r2.1, r2.2.1, a1 ++ r2.2.2)

/-- Tail of `PinController::setPWM` after configuration:
`int channel = _pinToPWMChannel[pin]; ledcWrite(channel, value);
state.value = value; return true;` (both map reads through `operator[]`). -/
def setPWMFinish (s : PinController) (pin value : Int) (acts : List HWAction) :
    Bool × PinController × List HWAction :=
  let p1 := mapIndex s.pinToPWMChannel pin 0
  let channel := p1.1
  let st := (mapFind s.pinStates pin).getD {}
  (true,
   { s with pinToPWMChannel := p1.2,
            pinStates := mapInsert s.pinStates pin ({ st with value := value }) },
   acts ++ [HWAction.ledcWrite channel value])

/-- `PinController::setPWM`. As in `setDigital`, `_pinStates[pin]` is an
`operator[]` read and may default-insert before the configure step runs. -/
def PinController.setPWM (s : PinController) (pin value : Int) :
    Bool × PinController × List HWAction :=
  if ¬ isValidPin pin then (false, s, [])
  else if value < 0 ∨ value > 255 then (false, s, [])
  else
    let p1 := mapIndex s.pinStates pin {}
    let state := p1.1
    let s1 : PinController := { s with pinStates := p1.2 }
    if ¬ state.isInitialized ∨ state.mode ≠ PinMode.PWM_OUTPUT then
      let r := s1.configurePWMOutput pin
      if r.1 then setPWMFinish r.2.1 pin value r.2.2 else (false, r.2.1, r.2.2)
    else
      setPWMFinish s1 pin value []

/-- `PinController::getPWM`: cached value only for an initialized PWM_OUTPUT
record, else -1; never reads hardware. -/
def PinController.getPWM (s : PinController) (pin : Int) : Int × PinController :=
  if ¬ isValidPin pin then (-1, s)
  else
    match mapFind s.pinStates pin with
    | some _ =>
      let p1 := mapIndex s.pinStates pin {}
      let state := p1.1
      let s1 : PinController := { s with pinStates := p1.2 }
      if state.isInitialized ∧ state.mode = PinMode.PWM_OUTPUT then (state.value, s1)
      else (-1, s1)
    | none => (-1, s)

/-- The loop of `PinController::resetAllPins`: drives every initialized
digital pin LOW and every initialized PWM channel to duty 0. The channel is
read through `_pinToPWMChannel[pin]` (`operator[]`), so that map is threaded
through the loop. -/
def resetLoop (ch : List (Int × Int)) :
    List (Int × PinState) → List (Int × Int) × List HWAction
  | [] => (ch, [])
  | (pin, st) :: rest =>
    if st.isInitialized then
      if st.mode = PinMode.DIGITAL_OUTPUT then
        let r := resetLoop ch rest
        (r.1, HWAction.digitalWrite pin 0 :: r.2)
      else if st.mode = PinMode.PWM_OUTPUT then
        let p1 := mapIndex ch pin 0
        let r := resetLoop p1.2 rest
        (r.1, HWAction.ledcWrite p1.1 0 :: r.2)
      else resetLoop ch rest
    else resetLoop ch rest

/-- `PinController::resetAllPins`: run the drive-low loop, then clear
`_pinStates`, `_pinToPWMChannel` and reset `_nextPWMChannel` to 0. -/
def PinController.resetAllPins (s : PinController) :
    Bool × PinController × List HWAction :=
  (true, { pinStates := [], pinToPWMChannel := [], nextPWMChannel := 0 },
   (resetLoop s.pinToPWMChannel s.pinStates).2)

/-! ## Command parser (`CommandParser.cpp`)

Strings are modelled as `List Char`. The structured (JSON) transport is
modelled post-deserialization as a `JsonCmdDoc` record holding the three
fields the parser reads; serialization itself (ArduinoJson) is a library
codec outside the embedded code. -/

inductive CommandType
  | INVALID
  | SET
  | GET
  | TOGGLE
  | PWM
  | STATUS
  | RESET
  | RESET_PINS
  | HELP
deriving DecidableEq, Repr

/-- `Command()` constructor defaults: `INVALID`, pin -1, value -1, empty
error message. -/
structure Command where
  type : CommandType := CommandType.INVALID
  pin : Int := -1
  value : Int := -1
  errorMessage : List Char := []
deriving DecidableEq, Repr

/-- `Command::isValid`. -/
def Command.isValid (cmd : Command) : Bool :=
  cmd.type ≠ CommandType.INVALID

/-- Arduino `String::trim` (strip whitespace from both ends). -/
def trimChars (l : List Char) : List Char :=
  ((l.dropWhile Char.isWhitespace).reverse.dropWhile Char.isWhitespace).reverse

/-- Digits-consuming core of `atol`: accumulate decimal digits, stop at the
first non-digit. -/
def digitsToNat (acc : Nat) : List Char → Nat
  | [] => acc
  | c :: rest => if c.isDigit then digitsToNat (acc * 10 + (c.toNat - 48)) rest else acc

/-- Arduino `String::toInt` (C `atol`): skip leading whitespace, optional
sign, then decimal digits; 0 when no digits. -/
def atol (l : List Char) : Int :=
  let l1 := l.dropWhile Char.isWhitespace
  match l1 with
  | '-' :: rest => -(digitsToNat 0 rest : Int)
  | '+' :: rest => (digitsToNat 0 rest : Int)
  | _ => (digitsToNat 0 l1 : Int)

/-- `CommandParser::stringToCommandType`. -/
def stringToCommandType (cmdStr : List Char) : CommandType :=
  if cmdStr = "SET".toList then CommandType.SET
  else if cmdStr = "GET".toList then CommandType.GET
  else if cmdStr = "TOGGLE".toList then CommandType.TOGGLE
  else if cmdStr = "PWM".toList then CommandType.PWM
  else if cmdStr = "STATUS".toList then CommandType.STATUS
  else if cmdStr = "RESET".toList then CommandType.RESET
  else if cmdStr = "RESET_PINS".toList then CommandType.RESET_PINS
  else if cmdStr = "HELP".toList then CommandType.HELP
  else CommandType.INVALID

/-- `CommandParser::commandTypeToString`. -/
def commandTypeToString (type : CommandType) : List Char :=
  match type with
  | CommandType.SET => "SET".toList
  | CommandType.GET => "GET".toList
  | CommandType.TOGGLE => "TOGGLE".toList
  | CommandType.PWM => "PWM".toList
  | CommandType.STATUS => "STATUS".toList
  | CommandType.RESET => "RESET".toList
  | CommandType.RESET_PINS => "RESET_PINS".toList
  | CommandType.HELP => "HELP".toList
  | CommandType.INVALID => "INVALID".toList

/-- Validation tail of the SET/PWM case of `CommandParser::parseText`:
`cmd.pin`/`cmd.value` are assigned before the checks, so failed checks keep
them on the invalidated command. -/
def textPinValueChecks (ty : CommandType) (pin value : Int) : Command :=
  if ¬ isValidPin pin then
    { type := CommandType.INVALID, pin := pin, value := value,
      errorMessage := "Invalid pin number: ".toList ++ (toString pin).toList }
  else if ty = CommandType.SET ∧ value ≠ 0 ∧ value ≠ 1 then
    { type := CommandType.INVALID, pin := pin, value := value,
      errorMessage := "SET value must be 0 or 1".toList }
  else if ty = CommandType.PWM ∧ (value < 0 ∨ value > 255) then
    { type := CommandType.INVALID, pin := pin, value := value,
      errorMessage := "PWM value must be 0-255".toList }
  else
    { type := ty, pin := pin, value := value }

/-- The SET/PWM case block of `CommandParser::parseText`: split the
parameter string at its first space into pin and value tokens
(`indexOf`/`substring`), convert with `toInt`, then validate. -/
def textPinValueCase (ty : CommandType) (params : List Char) : Command :=
  if params.dropWhile (fun c => c ≠ ' ') = [] then
    { type := CommandType.INVALID,
      errorMessage := "Missing parameters (expected: pin value)".toList }
  else
    let pinStr := trimChars (params.takeWhile (fun c => c ≠ ' '))
    let valueStr := trimChars
      (match params.dropWhile (fun c => c ≠ ' ') with
       | [] => []
       | _ :: rest => rest)
    textPinValueChecks ty (atol pinStr) (atol valueStr)

/-- Validation tail of the GET/TOGGLE case of `CommandParser::parseText`. -/
def textPinCheck (ty : CommandType) (pin : Int) : Command :=
  if ¬ isValidPin pin then
    { type := CommandType.INVALID, pin := pin,
      errorMessage := "Invalid pin number: ".toList ++ (toString pin).toList }
  else
    { type := ty, pin := pin }

/-- The GET/TOGGLE case block of `CommandParser::parseText`. -/
def textPinCase (ty : CommandType) (params : List Char) : Command :=
  if params.length = 0 then
    { type := CommandType.INVALID, errorMessage := "Missing pin parameter".toList }
  else textPinCheck ty (atol params)

/-- `CommandParser::parseText`. The input is the already-trimmed line. The
split mirrors `indexOf(' ')`/`substring`: the head token is everything
before the first space, the parameter string everything after it. -/
def parseText (textString : List Char) : Command :=
  let text := textString.map Char.toUpper
  let cmdStr := trimChars (text.takeWhile (fun c => c ≠ ' '))
  let params := trimChars
    (match text.dropWhile (fun c => c ≠ ' ') with
     | [] => []
     | _ :: rest => rest)
  let ty := stringToCommandType cmdStr
  if ty = CommandType.INVALID then
    { type := CommandType.INVALID, errorMessage := "Invalid command: ".toList ++ cmdStr }
  else
    match ty with
    | CommandType.SET | CommandType.PWM => textPinValueCase ty params
    | CommandType.GET | CommandType.TOGGLE => textPinCase ty params
    | CommandType.STATUS | CommandType.RESET | CommandType.RESET_PINS | CommandType.HELP =>
      { type := ty }
    | CommandType.INVALID =>
      { type := CommandType.INVALID, errorMessage := "Unknown command".toList }

/-- A deserialized structured command message: the three fields
`CommandParser::parseJSON` reads from the document. -/
structure JsonCmdDoc where
  cmd : Option (List Char) := none
  pin : Option Int := none
  value : Option Int := none
deriving DecidableEq, Repr

/-- `CommandParser::parseJSON` after `deserializeJson`: field checks,
keyword normalization, pin whitelist and value-range validation. On a
failed check the fields read so far stay on the returned command. -/
def parseJSON (doc : JsonCmdDoc) : Command :=
  match doc.cmd with
  | none => { type := CommandType.INVALID, errorMessage := "Missing \x27cmd\x27 field".toList }
  | some cmdStr0 =>
    let cmdStr := cmdStr0.map Char.toUpper
    let ty := stringToCommandType cmdStr
    if ty = CommandType.INVALID then
      { type := CommandType.INVALID, errorMessage := "Invalid command type: ".toList ++ cmdStr }
    else
      match ty with
      | CommandType.SET | CommandType.GET | CommandType.TOGGLE | CommandType.PWM =>
        match doc.pin with
        | none => { type := CommandType.INVALID, errorMessage := "Missing \x27pin\x27 field".toList }
        | some pin =>
          if ¬ isValidPin pin then
            { type := CommandType.INVALID, pin := pin,
              errorMessage := "Invalid pin number: ".toList ++ (toString pin).toList }
          else if ty = CommandType.SET ∨ ty = CommandType.PWM then
            match doc.value with
            | none =>
              { type := CommandType.INVALID, pin := pin,
                errorMessage := "Missing \x27value\x27 field".toList }
            | some value =>
              if ty = CommandType.SET ∧ value ≠ 0 ∧ value ≠ 1 then
                { type := CommandType.INVALID, pin := pin, value := value,
                  errorMessage := "SET value must be 0 or 1".toList }
              else if ty = CommandType.PWM ∧ (value < 0 ∨ value > 255) then
                { type := CommandType.INVALID, pin := pin, value := value,
                  errorMessage := "PWM value must be 0-255".toList }
              else
                { type := ty, pin := pin, value := value }
          else
            { type := ty, pin := pin }
      | _ => { type := ty }

/-- One inbound line: either a free-text line (not beginning with the
structured-object delimiter) or a structured line, the latter modelled
after deserialization. -/
inductive ParseInput
  | text (s : List Char)
  | json (d : JsonCmdDoc)

/-- `CommandParser::parse`: empty-input check, trim, then format dispatch
(text lines to `parseText`, structured lines to `parseJSON`). -/
def parse (input : ParseInput) : Command :=
  match input with
  | ParseInput.text s =>
    if s.length = 0 then { type := CommandType.INVALID, errorMessage := "Empty command".toList }
    else parseText (trimChars s)
  | ParseInput.json d => parseJSON d

/-- The structured response object built by `CommandParser::generateResponse`:
optional fields model keys that are only conditionally set on the document. -/
structure Response where
  success : Bool
  command : List Char
  pin : Option Int := none
  value : Option Int := none
  message : Option (List Char) := none
deriving DecidableEq, Repr

/-- `CommandParser::generateResponse`. -/
def generateResponse (cmd : Command) (success : Bool) (message : List Char)
    (resultValue : Int) : Response :=
  { success := success,
    command := commandTypeToString cmd.type,
    pin := if cmd.pin ≥ 0 then some cmd.pin else none,
    value := if resultValue ≥ 0 then some resultValue else none,
    message :=
      if message.length > 0 then some message
      else if ¬ success ∧ cmd.errorMessage.length > 0 then some cmd.errorMessage
      else none }

/-! ## Command executor
(`NetworkServer::processCommand` / `SerialCommandHandler::executeCommand`,
whose switch statements over the pin commands are identical) -/

/-- Outcome of the executor switch: a generic success/message/value
envelope, or one of the two special-cased reports (STATUS, HELP) that
bypass the envelope. -/
inductive ExecResult
  | envelope (success : Bool) (message : List Char) (resultValue : Int)
  | statusReport
  | helpText
deriving DecidableEq, Repr

/-- The executor switch over a parsed command (`NetworkServer.cpp` lines
172-221). `CommandType.RESET_PINS` has no case of its own and falls into
the `default:` branch. -/
def executeCommand (s : PinController) (hw : Int → Bool) (cmd : Command) :
    ExecResult × PinController × List HWAction :=
  match cmd.type with
  | CommandType.SET =>
    let r := s.setDigital cmd.pin cmd.value
    (ExecResult.envelope r.1
      (if r.1 then "Pin set successfully".toList else "Failed to set pin".toList)
      cmd.value, r.2)
  | CommandType.GET =>
    let r := s.getDigital hw cmd.pin
    (ExecResult.envelope (r.1 ≥ 0)
      (if r.1 ≥ 0 then "Pin value retrieved".toList else "Failed to get pin value".toList)
      r.1, r.2)
  | CommandType.TOGGLE =>
    let r := s.toggle hw cmd.pin
    if r.1 then
      let r2 := r.2.1.getDigital hw cmd.pin
      (ExecResult.envelope true "Pin toggled successfully".toList r2.1, r2.2.1,
       r.2.2 ++ r2.2.2)
    else
      (ExecResult.envelope false "Failed to toggle pin".toList (-1), r.2)
  | CommandType.PWM =>
    let r := s.setPWM cmd.pin cmd.value
    (ExecResult.envelope r.1
      (if r.1 then "PWM set successfully".toList else "Failed to set PWM".toList)
      cmd.value, r.2)
  | CommandType.STATUS => (ExecResult.statusReport, s, [])
  | CommandType.RESET =>
    (ExecResult.envelope true "System will restart in 2 seconds".toList (-1), s, [])
  | CommandType.HELP => (ExecResult.helpText, s, [])
  | _ => (ExecResult.envelope false "Unknown command".toList (-1), s, [])

/-- Rendered output of one processed line: a response envelope or a
special-cased report. -/
inductive CommandOutput
  | resp (r : Response)
  | statusReport
  | helpText
deriving DecidableEq, Repr

def renderExec (cmd : Command) (e : ExecResult) : CommandOutput :=
  match e with
  | ExecResult.envelope ok msg v => CommandOutput.resp (generateResponse cmd ok msg v)
  | ExecResult.statusReport => CommandOutput.statusReport
  | ExecResult.helpText => CommandOutput.helpText

/-- `NetworkServer::processCommand`: parse, reject invalid commands with
`generateResponse(cmd, false)` (defaults: empty message, result -1), else
run the executor switch and render its envelope. -/
def processCommand (s : PinController) (hw : Int → Bool) (input : ParseInput) :
    CommandOutput × PinController × List HWAction :=
  let cmd := parse input
  if ¬ cmd.isValid then
    (CommandOutput.resp (generateResponse cmd false [] (-1)), s, [])
  else
    let r := executeCommand s hw cmd
    (renderExec cmd r.1, r.2)

/-! ## Watchdog / recovery supervisor (`WatchdogManager.cpp`) -/

def W32 : Nat := 4294967296

/-- `unsigned long` subtraction `a - b` modulo 2^32, as in
`currentMillis - _lastFeed`. -/
def usub (a b : Nat) : Nat :=
  (a % W32 + (W32 - b % W32)) % W32

/-- Supervisor counters (`_lastFeed`, `_errorCount`, `_consecutiveErrors`,
`_lastErrorTime`); zeroed by the constructor. -/
structure WatchdogManager where
  lastFeed : Nat := 0
  errorCount : Nat := 0
  consecutiveErrors : Nat := 0
  lastErrorTime : Nat := 0
deriving DecidableEq, Repr

/-- `WatchdogManager::feed` at time `t`: rate-limited no-op within
`FEED_INTERVAL` of the last effective feed; otherwise records the feed and
clears the consecutive-error counter once `ERROR_COOLDOWN_PERIOD` has
passed since the last error. -/
def WatchdogManager.feed (s : WatchdogManager) (t : Nat) : WatchdogManager :=
  if usub t s.lastFeed < FEED_INTERVAL then s
  else
    let s1 := { s with lastFeed := t }
    if s1.consecutiveErrors > 0 ∧ usub t s1.lastErrorTime > ERROR_COOLDOWN_PERIOD then
      { s1 with consecutiveErrors := 0 }
    else s1

/-- `WatchdogManager::registerError` at time `t`: bumps both counters and
the error timestamp. The returned flag says whether `restart` was invoked
(`_consecutiveErrors >= MAX_CONSECUTIVE_ERRORS`, with
`AUTO_RESTART_ON_CRITICAL_ERROR` enabled in `Config.h`). -/
def WatchdogManager.registerError (s : WatchdogManager) (t : Nat) :
    WatchdogManager × Bool :=
  let s1 := { s with errorCount := s.errorCount + 1,
                     consecutiveErrors := s.consecutiveErrors + 1,
                     lastErrorTime := t }
  (s1, s1.consecutiveErrors ≥ MAX_CONSECUTIVE_ERRORS)

inductive WDEvent
  | feed (t : Nat)
  | registerError (t : Nat)
deriving DecidableEq, Repr

/-- Run a list of supervisor events from state `s`. `restart` reboots the
device and never returns, so the run stops at the first triggered restart.
Returns the final state, the number of restart calls, and the 1-based index
of the restarting event (`idx` is the number of events already consumed;
the index is 0 when no restart happens). -/
def runWDAux (s : WatchdogManager) (idx : Nat) :
    List WDEvent → WatchdogManager × Nat × Nat
  | [] => (s, 0, 0)
  | WDEvent.feed t :: rest => runWDAux (s.feed t) (idx + 1) rest
  | WDEvent.registerError t :: rest =>
    let r := s.registerError t
    if r.2 then (r.1, 1, idx + 1) else runWDAux r.1 (idx + 1) rest

def runWD (s : WatchdogManager) (events : List WDEvent) :
    WatchdogManager × Nat × Nat :=
  runWDAux s 0 events

/-- Alternating schedule: each round is one `registerError` at its first
time followed by one `feed` at its second time. -/
def spreadEvents : List (Nat × Nat) → List WDEvent
  | [] => []
  | (t, f) :: rest => WDEvent.registerError t :: WDEvent.feed f :: spreadEvents rest

/-- Well-spaced schedule relative to the incoming `lastFeed`: each round
feeds more than the cooldown period after its error, at least the feed
interval after the previous effective feed, and within the 32-bit clock. -/
def wellSpread (lastFeed : Nat) : List (Nat × Nat) → Bool
  | [] => true
  | (t, f) :: rest =>
    decide (lastFeed ≤ t) &&
    decide (t + ERROR_COOLDOWN_PERIOD < f) &&
    decide (lastFeed + FEED_INTERVAL ≤ f) &&
    decide (f < W32) &&
    wellSpread f rest

/-! ## Helper lemmas -/

theorem mapFind_mem {α : Type} {m : List (Int × α)} {k : Int} {v : α}
    (h : mapFind m k = some v) : (k, v) ∈ m := by
  induction m with
  | nil => simp [mapFind] at h
  | cons hd tl ih =>
    obtain ⟨k1, v1⟩ := hd
    by_cases hk : k1 = k
    · subst hk
      simp [mapFind] at h
      simp [h]
    · simp [mapFind, hk] at h
      exact List.mem_cons_of_mem _ (ih h)

theorem isValidPin_nonneg {p : Int} (h : isValidPin p = true) : 0 ≤ p := by
  simp [isValidPin, SAFE_PINS] at h
  rcases h with h | h | h | h | h | h | h | h | h | h | h | h | h | h | h | h | h | h <;>
    omega

/-- After a successful `setDigital`, the pin record is an initialized
DIGITAL_OUTPUT carrying the written value; the channel map, the channel
counter and all other pin records are untouched. -/
theorem setDigital_valid_eq (s : PinController) (pin value : Int)
    (hv : isValidPin pin = true) (hval : value = 0 ∨ value = 1) :
    (s.setDigital pin value).1 = true ∧
    mapFind (s.setDigital pin value).2.1.pinStates pin =
      some { mode := PinMode.DIGITAL_OUTPUT, value := value, isInitialized := true } ∧
    (s.setDigital pin value).2.1.pinToPWMChannel = s.pinToPWMChannel ∧
    (s.setDigital pin value).2.1.nextPWMChannel = s.nextPWMChannel ∧
    (∀ q, q ≠ pin → mapFind (s.setDigital pin value).2.1.pinStates q = mapFind s.pinStates q) := by
  have hnval : ¬(value ≠ 0 ∧ value ≠ 1) := by
    rcases hval with h | h <;> simp [h]
  cases hfind : mapFind s.pinStates pin with
  | none =>
    simp only [PinController.setDigital, hv, hnval, mapIndex, hfind,
      PinController.configureDigitalOutput, setDigitalFinish, mapFind_mapInsert,
      Bool.not_true, not_false_eq_true, if_false, ite_false]
    simp [mapFind_mapInsert]
    intro q hq
    rw [if_neg (fun h => hq h.symm), if_neg (fun h => hq h.symm), if_neg (fun h => hq h.symm)]
  | some st =>
    by_cases hcond : ¬ st.isInitialized = true ∨ ¬ st.mode = PinMode.DIGITAL_OUTPUT
    · simp only [PinController.setDigital, hv, hnval, mapIndex, hfind,
        PinController.configureDigitalOutput, setDigitalFinish, mapFind_mapInsert,
        Bool.not_true, not_false_eq_true, if_false, ite_false, hcond]
      simp [mapFind_mapInsert, hcond]
      intro q hq
      rw [if_neg (fun h => hq h.symm), if_neg (fun h => hq h.symm)]
    · push_neg at hcond
      obtain ⟨hinit, hmode⟩ := hcond
      have hcond2 : ¬(¬ st.isInitialized = true ∨ ¬ st.mode = PinMode.DIGITAL_OUTPUT) := by
        simp [hinit, hmode]
      simp only [PinController.setDigital, hv, hnval, mapIndex, hfind,
        setDigitalFinish, mapFind_mapInsert,
        Bool.not_true, not_false_eq_true, if_false, ite_false, hcond2]
      simp [mapFind_mapInsert, hcond2, hfind]
      refine ⟨⟨hmode, hinit⟩, ?_⟩
      intro q hq h
      exact (hq h.symm).elim

/-- `getDigital` on a pin whose record is an initialized DIGITAL_OUTPUT
returns the cached value, leaves the store unchanged and performs no
hardware access. -/
theorem getDigital_cached (s : PinController) (hw : Int → Bool) (pin : Int) (st : PinState)
    (hv : isValidPin pin = true) (hfind : mapFind s.pinStates pin = some st)
    (hinit : st.isInitialized = true) (hmode : st.mode = PinMode.DIGITAL_OUTPUT) :
    s.getDigital hw pin = (st.value, s, []) := by
  unfold PinController.getDigital
  simp only [hv, Bool.not_true, not_false_eq_true, if_false, ite_false, not_true_eq_false]
  rw [hfind]
  rw [mapIndex_of_find _ _ _ _ hfind]
  simp [hinit, hmode]

/-- C10 frame lemma, `getDigital` part. -/
theorem getDigital_frame (s : PinController) (hw : Int → Bool) (pin : Int) :
    (s.getDigital hw pin).2.1 = s := by
  unfold PinController.getDigital
  by_cases hv : isValidPin pin = true
  · simp only [hv]
    cases hfind : mapFind s.pinStates pin with
    | none => simp
    | some st =>
      rw [mapIndex_of_find _ _ _ _ hfind]
      by_cases hc : st.isInitialized = true ∧ st.mode = PinMode.DIGITAL_OUTPUT <;> simp [hc]
  · simp [hv]

/-- C10 frame lemma, `getPWM` part. -/
theorem getPWM_frame (s : PinController) (pin : Int) :
    (s.getPWM pin).2 = s := by
  unfold PinController.getPWM
  by_cases hv : isValidPin pin = true
  · simp only [hv]
    cases hfind : mapFind s.pinStates pin with
    | none => simp
    | some st =>
      rw [mapIndex_of_find _ _ _ _ hfind]
      by_cases hc : st.isInitialized = true ∧ st.mode = PinMode.PWM_OUTPUT <;> simp [hc]
  · simp [hv]

/-- C10: for every pin and every store state, the read operations
`getDigital` and `getPWM` leave the Pin State Store completely unchanged —
no record is created, modified or removed and no channel assignment is
touched — even when `getDigital` takes the input-read fallback path; only
hardware actions are emitted. -/
theorem C10_readers_leave_store_unchanged (s : PinController) (hw : Int → Bool) (pin : Int) :
    (s.getDigital hw pin).2.1 = s ∧ (s.getPWM pin).2 = s :=
  ⟨getDigital_frame s hw pin, getPWM_frame s pin⟩

/-- C4: on an allowed pin, a successful `setDigital(p, 1)` followed by
`getDigital(p)` returns 1 from the cached record: the store is unchanged by
the read and no hardware input read (no `pinMode(INPUT)`/`digitalRead`
action) is performed. -/
theorem C4_set_then_get_is_cached (s : PinController) (hw : Int → Bool) (pin : Int)
    (hv : isValidPin pin = true) :
    (s.setDigital pin 1).1 = true ∧
    ((s.setDigital pin 1).2.1.getDigital hw pin) = (1, (s.setDigital pin 1).2.1, []) := by
  obtain ⟨hok, hfind, -, -, -⟩ := setDigital_valid_eq s pin 1 hv (Or.inr rfl)
  refine ⟨hok, ?_⟩
  exact getDigital_cached _ hw pin _ hv hfind rfl rfl

/-- C4 witness at pin 13 on the empty store. -/
theorem C4_witness :
    isValidPin 13 = true ∧
    (emptyController.setDigital 13 1).1 = true ∧
    ((emptyController.setDigital 13 1).2.1.getDigital (fun _ => false) 13) =
      (1, (emptyController.setDigital 13 1).2.1, []) := by
  refine ⟨by decide, ?_⟩
  exact C4_set_then_get_is_cached emptyController (fun _ => false) 13 (by decide)

/-- C3: a SET/GET/TOGGLE/PWM command addressing a pin outside the Allowed
Pin Set yields a failure envelope (`success=false`), leaves the Pin State
Store completely unchanged and performs no hardware action. -/
theorem C3_disallowed_pin_rejected_without_mutation (s : PinController) (hw : Int → Bool)
    (cmd : Command) (hp : isValidPin cmd.pin = false)
    (hty : cmd.type = CommandType.SET ∨ cmd.type = CommandType.GET ∨
           cmd.type = CommandType.TOGGLE ∨ cmd.type = CommandType.PWM) :
    (∃ msg v, (executeCommand s hw cmd).1 = ExecResult.envelope false msg v) ∧
    (executeCommand s hw cmd).2.1 = s ∧
    (executeCommand s hw cmd).2.2 = [] := by
  rcases hty with h | h | h | h <;>
    simp only [executeCommand, h, PinController.setDigital, PinController.getDigital,
      PinController.toggle, PinController.setPWM, hp, Bool.false_eq_true, not_false_eq_true,
      if_true, ite_true] <;>
    simp [hp]

/-- C3 witness: SET on pin 3 (not in the Allowed Pin Set). -/
theorem C3_witness :
    isValidPin 3 = false ∧
    (∃ msg v,
      (executeCommand emptyController (fun _ => false)
        { type := CommandType.SET, pin := 3, value := 1 }).1 = ExecResult.envelope false msg v) ∧
    (executeCommand emptyController (fun _ => false)
      { type := CommandType.SET, pin := 3, value := 1 }).2.1 = emptyController ∧
    (executeCommand emptyController (fun _ => false)
      { type := CommandType.SET, pin := 3, value := 1 }).2.2 = [] := by
  refine ⟨by decide, ?_⟩
  exact C3_disallowed_pin_rejected_without_mutation emptyController (fun _ => false)
    { type := CommandType.SET, pin := 3, value := 1 } (by decide) (Or.inl rfl)

/-! ## C5: toggle -/

/-- Data-model invariant of the spec: a digital record stores 0 or 1. -/
def digitalValuesOK (s : PinController) : Bool :=
  s.pinStates.all (fun e =>
    !(e.2.isInitialized && (e.2.mode == PinMode.DIGITAL_OUTPUT)) ||
      (e.2.value == 0 || e.2.value == 1))

theorem digitalValuesOK_find {s : PinController} {p : Int} {st : PinState}
    (hok : digitalValuesOK s = true) (hfind : mapFind s.pinStates p = some st)
    (hinit : st.isInitialized = true) (hmode : st.mode = PinMode.DIGITAL_OUTPUT) :
    st.value = 0 ∨ st.value = 1 := by
  have hmem := mapFind_mem hfind
  have := List.all_eq_true.mp hok _ hmem
  simp [hinit, hmode] at this
  rcases this with h | h
  · exact Or.inl h
  · exact Or.inr h

/-- On an allowed pin of a store whose digital records hold 0/1, `getDigital`
returns 0 or 1 (cached or live read). -/
theorem getDigital_val01 (s : PinController) (hw : Int → Bool) (pin : Int)
    (hv : isValidPin pin = true) (hok : digitalValuesOK s = true) :
    (s.getDigital hw pin).1 = 0 ∨ (s.getDigital hw pin).1 = 1 := by
  unfold PinController.getDigital
  simp only [hv, Bool.not_true, not_false_eq_true, if_false, ite_false, not_true_eq_false]
  cases hfind : mapFind s.pinStates pin with
  | none => by_cases h : hw pin <;> simp [h]
  | some st =>
    rw [mapIndex_of_find _ _ _ _ hfind]
    by_cases hc : st.isInitialized = true ∧ st.mode = PinMode.DIGITAL_OUTPUT
    · simp only [hc, if_true, ite_true]
      simp
      exact digitalValuesOK_find hok hfind hc.1 hc.2
    · simp only [hc, if_false, ite_false]
      by_cases h : hw pin <;> simp [h, hc]

/-- The claim-side description of `toggle`: read the value through
`getDigital`; unless the read is the -1 sentinel, write back the
complement `1 - v` through `setDigital`. -/
def toggleSpec (s : PinController) (hw : Int → Bool) (pin : Int) :
    Bool × PinController × List HWAction :=
  let r1 := s.getDigital hw pin
  if r1.1 = -1 then (false, r1.2.1, r1.2.2)
  else
    let r2 := r1.2.1.setDigital pin (1 - r1.1)
    (r2.1, r2.2.1, r1.2.2 ++ r2.2.2)

/-- `toggle` on an initialized digital pin: succeeds and flips the cached
value to its complement; result, actions and other records aside. -/
theorem toggle_on_digital (s : PinController) (hw : Int → Bool) (pin : Int) (st : PinState)
    (hv : isValidPin pin = true) (hfind : mapFind s.pinStates pin = some st)
    (hinit : st.isInitialized = true) (hmode : st.mode = PinMode.DIGITAL_OUTPUT)
    (h01 : st.value = 0 ∨ st.value = 1) :
    (s.toggle hw pin).1 = true ∧
    mapFind (s.toggle hw pin).2.1.pinStates pin =
      some { mode := PinMode.DIGITAL_OUTPUT, value := if st.value = 0 then 1 else 0,
             isInitialized := true } := by
  have hget := getDigital_cached s hw pin st hv hfind hinit hmode
  have hlt : ¬ st.value < 0 := by rcases h01 with h | h <;> simp [h]
  have hset := setDigital_valid_eq s pin (if st.value = 0 then 1 else 0) hv
    (by rcases h01 with h | h <;> simp [h])
  unfold PinController.toggle
  rw [if_neg (by simp [hv])]
  rw [hget]
  simp only [hlt, if_false, ite_false]
  exact ⟨hset.1, hset.2.1⟩

/-- C5: on allowed pins of a well-formed store, `toggle` coincides with the
read-then-complement composition `getDigital` / `setDigital(p, 1 - v)`
(failing exactly on an invalid read); and on a pin in DigitalOutput mode a
double toggle restores the originally stored value (involution). -/
theorem C5_toggle_equiv_and_involution :
    (∀ (s : PinController) (hw : Int → Bool) (pin : Int),
      isValidPin pin = true → digitalValuesOK s = true →
      s.toggle hw pin = toggleSpec s hw pin) ∧
    (∀ (s : PinController) (hw : Int → Bool) (pin : Int) (st : PinState),
      isValidPin pin = true → mapFind s.pinStates pin = some st →
      st.isInitialized = true → st.mode = PinMode.DIGITAL_OUTPUT →
      (st.value = 0 ∨ st.value = 1) →
      (s.toggle hw pin).1 = true ∧
      ((s.toggle hw pin).2.1.toggle hw pin).1 = true ∧
      mapFind ((s.toggle hw pin).2.1.toggle hw pin).2.1.pinStates pin =
        some { mode := PinMode.DIGITAL_OUTPUT, value := st.value, isInitialized := true }) := by
  constructor
  · intro s hw pin hv hok
    have h01 := getDigital_val01 s hw pin hv hok
    unfold PinController.toggle toggleSpec
    rw [if_neg (by simp [hv])]
    rcases h01 with h | h <;> simp [h]
  · intro s hw pin st hv hfind hinit hmode h01
    obtain ⟨hok1, hfind1⟩ := toggle_on_digital s hw pin st hv hfind hinit hmode h01
    obtain ⟨hok2, hfind2⟩ := toggle_on_digital _ hw pin _ hv hfind1 rfl rfl
      (by rcases h01 with h | h <;> simp [h])
    refine ⟨hok1, hok2, ?_⟩
    rw [hfind2]
    rcases h01 with h | h <;> simp [h]

/-- C5 witness: pin 13 set HIGH, with a constant-low input environment. -/
theorem C5_witness :
    ((emptyController.setDigital 13 1).2.1.toggle (fun _ => false) 13 =
      toggleSpec (emptyController.setDigital 13 1).2.1 (fun _ => false) 13) ∧
    (((emptyController.setDigital 13 1).2.1.toggle (fun _ => false) 13).1 = true ∧
     ((((emptyController.setDigital 13 1).2.1.toggle (fun _ => false) 13).2.1.toggle
        (fun _ => false) 13)).1 = true ∧
     mapFind ((((emptyController.setDigital 13 1).2.1.toggle (fun _ => false) 13).2.1.toggle
        (fun _ => false) 13)).2.1.pinStates 13 =
       some { mode := PinMode.DIGITAL_OUTPUT, value := 1, isInitialized := true }) := by
  constructor
  · exact C5_toggle_equiv_and_involution.1 _ _ 13 (by decide) (by decide)
  · exact C5_toggle_equiv_and_involution.2 _ _ 13
      { mode := PinMode.DIGITAL_OUTPUT, value := 1, isInitialized := true }
      (by decide) (by decide) rfl rfl (Or.inr rfl)

/-! ## C2: PWM pool exhaustion -/

/-- The result value of `getPWM` depends on the store only through the
record found at the queried pin. -/
theorem getPWM_congr (s1 s2 : PinController) (q : Int)
    (h : mapFind s1.pinStates q = mapFind s2.pinStates q) :
    (s1.getPWM q).1 = (s2.getPWM q).1 := by
  unfold PinController.getPWM
  by_cases hv : isValidPin q = true
  · simp only [hv]
    rw [h]
    cases hfind : mapFind s2.pinStates q with
    | none => simp
    | some st =>
      rw [mapIndex_of_find _ _ _ _ (h.trans hfind), mapIndex_of_find _ _ _ _ hfind]
      by_cases hc : st.isInitialized = true ∧ st.mode = PinMode.PWM_OUTPUT <;> simp [hc]
  · simp [hv]

/-- The result value of `getDigital` depends on the store only through the
record found at the queried pin. -/
theorem getDigital_congr (s1 s2 : PinController) (hw : Int → Bool) (q : Int)
    (h : mapFind s1.pinStates q = mapFind s2.pinStates q) :
    (s1.getDigital hw q).1 = (s2.getDigital hw q).1 := by
  unfold PinController.getDigital
  by_cases hv : isValidPin q = true
  · simp only [hv]
    rw [h]
    cases hfind : mapFind s2.pinStates q with
    | none => simp
    | some st =>
      rw [mapIndex_of_find _ _ _ _ (h.trans hfind), mapIndex_of_find _ _ _ _ hfind]
      by_cases hc : st.isInitialized = true ∧ st.mode = PinMode.DIGITAL_OUTPUT <;> simp [hc]
  · simp [hv]

/-- A store in which all 16 PWM channels have been allocated, reached from
the empty store by 16 `setPWM` calls on distinct allowed pins. -/
def pwmFull16 : PinController :=
  List.foldl (fun s p => (s.setPWM p 10).2.1) emptyController
    [4, 5, 12, 13, 14, 15, 16, 17, 18, 19, 21, 22, 23, 25, 26, 27]

set_option maxRecDepth 4000 in
/-- C2 counterexample: with the pool exhausted, `setPWM` on the fresh
allowed pin 32 returns false — but it does create a PinRecord for pin 32
(the default-constructed record inserted by `_pinStates[pin]` before the
channel check), contradicting the claim that no PinRecord is created. -/
theorem C2_counterexample :
    pwmFull16.nextPWMChannel = 16 ∧
    isValidPin 32 = true ∧
    mapFind pwmFull16.pinStates 32 = none ∧
    (pwmFull16.setPWM 32 100).1 = false ∧
    mapFind (pwmFull16.setPWM 32 100).2.1.pinStates 32 = some ({} : PinState) := by
  decide

/-- C2 (amended): with the pool exhausted, `setPWM` on an allowed pin not
in PwmOutput mode fails, emits no hardware action, leaves every channel
assignment, the channel counter and every existing PinRecord untouched,
and at most inserts a default-constructed uninitialized record for the
addressed pin, which no read observes. -/
theorem C2_pool_exhausted_fails_without_observable_mutation
    (s : PinController) (p v : Int)
    (hfull : s.nextPWMChannel ≥ 16) (hvp : isValidPin p = true)
    (hnotpwm : ∀ st, mapFind s.pinStates p = some st →
      ¬(st.isInitialized = true ∧ st.mode = PinMode.PWM_OUTPUT))
    (hv0 : 0 ≤ v) (hv255 : v ≤ 255) :
    (s.setPWM p v).1 = false ∧
    (s.setPWM p v).2.2 = [] ∧
    (s.setPWM p v).2.1.pinToPWMChannel = s.pinToPWMChannel ∧
    (s.setPWM p v).2.1.nextPWMChannel = s.nextPWMChannel ∧
    (∀ q, q ≠ p → mapFind (s.setPWM p v).2.1.pinStates q = mapFind s.pinStates q) ∧
    ((mapFind s.pinStates p).isSome = true → (s.setPWM p v).2.1 = s) ∧
    (mapFind s.pinStates p = none →
      (s.setPWM p v).2.1.pinStates = mapInsert s.pinStates p ({} : PinState)) ∧
    (∀ q, ((s.setPWM p v).2.1.getPWM q).1 = (s.getPWM q).1) ∧
    (∀ q hw, ((s.setPWM p v).2.1.getDigital hw q).1 = (s.getDigital hw q).1) := by
  have hrange : ¬ (v < 0 ∨ v > 255) := by omega
  have hcfgfail : ∀ s1 : PinController, s1.nextPWMChannel = s.nextPWMChannel →
      s1.configurePWMOutput p = (false, s1, []) := by
    intro s1 h1
    unfold PinController.configurePWMOutput
    rw [if_pos (by omega)]
  cases hfind : mapFind s.pinStates p with
  | some st =>
    have hcond : ¬ st.isInitialized = true ∨ ¬ st.mode = PinMode.PWM_OUTPUT := by
      have := hnotpwm st hfind
      by_cases h1 : st.isInitialized = true
      · exact Or.inr (fun h2 => this ⟨h1, h2⟩)
      · exact Or.inl h1
    have heq : s.setPWM p v = (false, s, []) := by
      unfold PinController.setPWM
      rw [if_neg (by simp [hvp]), if_neg hrange]
      rw [mapIndex_of_find _ _ _ _ hfind]
      simp only [if_pos hcond]
      rw [hcfgfail s rfl]
      simp
    rw [heq]
    simp [hfind]
  | none =>
    have heq : s.setPWM p v =
        (false, { s with pinStates := mapInsert s.pinStates p ({} : PinState) }, []) := by
      unfold PinController.setPWM
      rw [if_neg (by simp [hvp]), if_neg hrange]
      rw [mapIndex_of_none _ _ _ hfind]
      rw [if_pos (by simp)]
      rw [hcfgfail { s with pinStates := mapInsert s.pinStates p ({} : PinState) } rfl]
      simp
    rw [heq]
    refine ⟨rfl, rfl, rfl, rfl, ?_, ?_, ?_, ?_, ?_⟩
    · intro q hq
      simp [mapFind_mapInsert]
      intro h
      exact (hq h.symm).elim
    · intro h
      simp at h
    · intro _
      rfl
    · intro q
      by_cases hq : q = p
      · subst hq
        unfold PinController.getPWM
        by_cases hv : isValidPin q = true
        · simp only [hv]
          have hL : mapFind (mapInsert s.pinStates q ({} : PinState)) q =
              some ({} : PinState) := by simp [mapFind_mapInsert]
          rw [hfind, hL, mapIndex_of_find _ _ _ _ hL]
          simp
        · simp [hv]
      · apply getPWM_congr
        simp [mapFind_mapInsert]
        intro h
        exact (hq h.symm).elim
    · intro q hw
      by_cases hq : q = p
      · subst hq
        unfold PinController.getDigital
        by_cases hv : isValidPin q = true
        · simp only [hv]
          have hL : mapFind (mapInsert s.pinStates q ({} : PinState)) q =
              some ({} : PinState) := by simp [mapFind_mapInsert]
          rw [hfind, hL, mapIndex_of_find _ _ _ _ hL]
          simp
        · simp [hv]
      · apply getDigital_congr
        simp [mapFind_mapInsert]
        intro h
        exact (hq h.symm).elim

set_option maxRecDepth 4000 in
/-- C2 amended-claim witness: the exhausted pool built by 16 allocations,
then `setPWM 32 100`. -/
theorem C2_amended_witness :
    (pwmFull16.setPWM 32 100).1 = false ∧
    (pwmFull16.setPWM 32 100).2.1.pinToPWMChannel = pwmFull16.pinToPWMChannel ∧
    (pwmFull16.setPWM 32 100).2.1.nextPWMChannel = pwmFull16.nextPWMChannel ∧
    ((pwmFull16.setPWM 32 100).2.1.getPWM 27).1 = (pwmFull16.getPWM 27).1 := by
  have h := C2_pool_exhausted_fails_without_observable_mutation pwmFull16 32 100
    (by decide) (by decide)
    (by intro st hst
        rw [show mapFind pwmFull16.pinStates 32 = none from by decide] at hst
        cases hst)
    (by decide) (by decide)
  exact ⟨h.1, h.2.2.1, h.2.2.2.1, h.2.2.2.2.2.2.2.1 27⟩

/-! ## C1: RESET_PINS through the command-execution path -/

def hwLow : Int → Bool := fun _ => false

/-- A reachable store with pin 13 configured as DigitalOutput, value 1. -/
def sPin13On : PinController := (emptyController.setDigital 13 1).2.1

set_option maxRecDepth 4000 in
/-- C1 evaluation at the failing input: `RESET_PINS` parses successfully,
but the executor switch (identical in the network server and the serial
handler) has no case for it, so processing it answers `success=false`,
message "Unknown command", and leaves the store untouched — a subsequent
GET on pin 13 is still served from the cache. The store-level
`resetAllPins` itself does clear everything, after which a GET takes the
input-read path; the dispatch case is simply missing. -/
theorem C1_reset_pins_not_dispatched :
    parse (ParseInput.text "RESET_PINS".toList) =
      { type := CommandType.RESET_PINS, pin := -1, value := -1, errorMessage := [] } ∧
    (parse (ParseInput.text "RESET_PINS".toList)).isValid = true ∧
    processCommand sPin13On hwLow (ParseInput.text "RESET_PINS".toList) =
      (CommandOutput.resp
        { success := false, command := "RESET_PINS".toList, pin := none, value := none,
          message := some "Unknown command".toList },
       sPin13On, []) ∧
    sPin13On.getDigital hwLow 13 = (1, sPin13On, []) ∧
    sPin13On.resetAllPins.2.1 = emptyController ∧
    (emptyController.getDigital hwLow 13).2.2 =
      [HWAction.pinModeInput 13, HWAction.digitalRead 13] := by
  decide

/-! ## C7: generateResponse field presence -/

/-- C7: the rendered response has a `pin` field iff the command carries a
pin (non-negative pin), a `value` field iff the result value is
non-negative, and a `message` field iff the resulting message is non-empty
— the caller-supplied message when present, else the command's recorded
failure reason on failure, else nothing. -/
theorem C7_response_field_presence (cmd : Command) (success : Bool)
    (message : List Char) (resultValue : Int) :
    ((generateResponse cmd success message resultValue).pin =
      (if 0 ≤ cmd.pin then some cmd.pin else none)) ∧
    ((generateResponse cmd success message resultValue).value =
      (if 0 ≤ resultValue then some resultValue else none)) ∧
    ((generateResponse cmd success message resultValue).message.isSome ↔
      (message ≠ [] ∨ (success = false ∧ cmd.errorMessage ≠ []))) ∧
    (message ≠ [] →
      (generateResponse cmd success message resultValue).message = some message) ∧
    (message = [] → success = false → cmd.errorMessage ≠ [] →
      (generateResponse cmd success message resultValue).message = some cmd.errorMessage) ∧
    (message = [] → (success = true ∨ cmd.errorMessage = []) →
      (generateResponse cmd success message resultValue).message = none) := by
  unfold generateResponse
  refine ⟨by simp [ge_iff_le], by simp [ge_iff_le], ?_, ?_, ?_, ?_⟩
  · by_cases hm : message = []
    · subst hm
      cases success <;> by_cases he : cmd.errorMessage = [] <;>
        simp [he, List.length_pos_iff_ne_nil]
    · simp [hm, List.length_pos_iff_ne_nil.mpr hm]
  · intro hm
    simp [List.length_pos_iff_ne_nil.mpr hm]
  · intro hm hs he
    subst hm hs
    simp [List.length_pos_iff_ne_nil.mpr he]
  · intro hm hcase
    subst hm
    rcases hcase with h | h <;> simp [h]

/-- C7 witness: a failed SET command with no caller message falls back to
the recorded parse error. -/
theorem C7_witness :
    (generateResponse
      { type := CommandType.SET, pin := 13, value := 2,
        errorMessage := "SET value must be 0 or 1".toList } false [] (-1)).message =
      some "SET value must be 0 or 1".toList ∧
    (generateResponse
      { type := CommandType.SET, pin := 13, value := 2,
        errorMessage := "SET value must be 0 or 1".toList } false [] (-1)).pin = some 13 ∧
    (generateResponse
      { type := CommandType.SET, pin := 13, value := 2,
        errorMessage := "SET value must be 0 or 1".toList } false [] (-1)).value = none := by
  have h := C7_response_field_presence
    { type := CommandType.SET, pin := 13, value := 2,
      errorMessage := "SET value must be 0 or 1".toList } false [] (-1)
  refine ⟨h.2.2.2.2.1 rfl rfl (by decide), ?_, ?_⟩
  · rw [h.1]
    decide
  · rw [h.2.1]
    decide

/-! ## C6: watchdog error escalation -/

theorem usub_eq (a b : Nat) (hba : b ≤ a) (ha : a < W32) : usub a b = a - b := by
  have hb : b < W32 := lt_of_le_of_lt hba ha
  simp only [usub]
  rw [Nat.mod_eq_of_lt ha, Nat.mod_eq_of_lt hb]
  simp only [W32] at *
  omega

/-- One `registerError` event in a run: restart triggers exactly when the
bumped counter reaches the threshold. -/
theorem runWDAux_registerError_cons (s : WatchdogManager) (idx t : Nat)
    (rest : List WDEvent) :
    runWDAux s idx (WDEvent.registerError t :: rest) =
      if s.consecutiveErrors + 1 ≥ MAX_CONSECUTIVE_ERRORS then
        ((s.registerError t).1, 1, idx + 1)
      else runWDAux (s.registerError t).1 (idx + 1) rest := by
  simp only [runWDAux, WatchdogManager.registerError]
  by_cases h : s.consecutiveErrors + 1 ≥ MAX_CONSECUTIVE_ERRORS <;> simp [h]

/-- A run of back-to-back errors starting `ts.length` short of the
threshold triggers exactly one restart, on the final event. -/
theorem runWDAux_threshold (ts : List Nat) :
    ∀ (s : WatchdogManager) (idx : Nat),
      s.consecutiveErrors + ts.length = MAX_CONSECUTIVE_ERRORS → 0 < ts.length →
      (runWDAux s idx (ts.map WDEvent.registerError)).2 = (1, idx + ts.length) := by
  induction ts with
  | nil =>
    intro s idx h h0
    simp at h0
  | cons t rest ih =>
    intro s idx h h0
    rw [List.map_cons, runWDAux_registerError_cons]
    simp only [List.length_cons] at h
    by_cases hr : s.consecutiveErrors + 1 ≥ MAX_CONSECUTIVE_ERRORS
    · rw [if_pos hr]
      have hrl : rest.length = 0 := by omega
      simp [hrl]
    · rw [if_neg hr]
      have h2 : (s.registerError t).1.consecutiveErrors + rest.length =
          MAX_CONSECUTIVE_ERRORS := by
        simp [WatchdogManager.registerError]
        omega
      have h3 : 0 < rest.length := by omega
      rw [ih _ _ h2 h3]
      simp
      omega

/-- An effective feed past the cooldown window clears the
consecutive-error counter. -/
theorem feed_clears (s : WatchdogManager) (f : Nat)
    (hfe : s.lastFeed + FEED_INTERVAL ≤ f)
    (hcool : s.lastErrorTime + ERROR_COOLDOWN_PERIOD < f)
    (hwrap : f < W32) (hcons : 0 < s.consecutiveErrors) :
    s.feed f = { s with lastFeed := f, consecutiveErrors := 0 } := by
  have h1 : usub f s.lastFeed = f - s.lastFeed :=
    usub_eq f s.lastFeed (by omega) hwrap
  have h2 : usub f s.lastErrorTime = f - s.lastErrorTime :=
    usub_eq f s.lastErrorTime (by omega) hwrap
  simp only [WatchdogManager.feed, h1, h2]
  rw [if_neg (by simp only [FEED_INTERVAL] at *; omega)]
  rw [if_pos ⟨hcons, by simp only [ERROR_COOLDOWN_PERIOD] at *; omega⟩]

/-- A well-spread alternation of errors and effective feeds, closed by one
final error, never lets the counter reach the threshold. -/
theorem runWDAux_spread_no_restart (rounds : List (Nat × Nat)) :
    ∀ (s : WatchdogManager) (idx tlast : Nat),
      s.consecutiveErrors = 0 → wellSpread s.lastFeed rounds = true →
      (runWDAux s idx (spreadEvents rounds ++ [WDEvent.registerError tlast])).2.1 = 0 := by
  induction rounds with
  | nil =>
    intro s idx tlast hc hws
    simp [spreadEvents, runWDAux, WatchdogManager.registerError, hc, MAX_CONSECUTIVE_ERRORS]
  | cons round rest ih =>
    obtain ⟨t, f⟩ := round
    intro s idx tlast hc hws
    rw [show wellSpread s.lastFeed ((t, f) :: rest) =
        (decide (s.lastFeed ≤ t) && decide (t + ERROR_COOLDOWN_PERIOD < f) &&
         decide (s.lastFeed + FEED_INTERVAL ≤ f) && decide (f < W32) &&
         wellSpread f rest) from by rw [wellSpread]] at hws
    simp only [Bool.and_eq_true, decide_eq_true_eq] at hws
    obtain ⟨⟨⟨⟨h0, h1⟩, h2⟩, h3⟩, h4⟩ := hws
    simp only [spreadEvents, List.cons_append]
    rw [runWDAux_registerError_cons]
    rw [if_neg (by simp [hc, MAX_CONSECUTIVE_ERRORS])]
    simp only [runWDAux]
    have hfeed : ((s.registerError t).1).feed f =
        { (s.registerError t).1 with lastFeed := f, consecutiveErrors := 0 } := by
      apply feed_clears
      · simpa [WatchdogManager.registerError] using h2
      · simpa [WatchdogManager.registerError] using h1
      · exact h3
      · simp [WatchdogManager.registerError]
    rw [hfeed]
    exact ih _ _ tlast rfl h4

/-- C6: from a clean counter, MAX_CONSECUTIVE_ERRORS (10) back-to-back
`registerError` calls with no intervening cooldown trigger exactly one
restart, on the call that reaches the threshold (event 10 of the run);
whereas the same number of errors, each separated from the next by an
interval exceeding ERROR_COOLDOWN_PERIOD in which an effective `feed()`
occurs, never triggers a restart. -/
theorem C6_error_threshold_and_cooldown :
    (∀ (s : WatchdogManager) (ts : List Nat),
      s.consecutiveErrors = 0 → ts.length = MAX_CONSECUTIVE_ERRORS →
      (runWD s (ts.map WDEvent.registerError)).2 = (1, MAX_CONSECUTIVE_ERRORS)) ∧
    (∀ (s : WatchdogManager) (rounds : List (Nat × Nat)) (tlast : Nat),
      s.consecutiveErrors = 0 → rounds.length + 1 = MAX_CONSECUTIVE_ERRORS →
      wellSpread s.lastFeed rounds = true →
      (runWD s (spreadEvents rounds ++ [WDEvent.registerError tlast])).2.1 = 0) := by
  constructor
  · intro s ts hc hlen
    unfold runWD
    rw [runWDAux_threshold ts s 0 (by simp [hc, hlen])
      (by simp [hlen, MAX_CONSECUTIVE_ERRORS])]
    simp [hlen]
  · intro s rounds tlast hc hlen hws
    exact runWDAux_spread_no_restart rounds s 0 tlast hc hws

/-- C6 witness: ten immediate errors restart on the tenth event; ten errors
spread 6 seconds apart with feeds in between never restart. -/
theorem C6_witness :
    (runWD {} ([0, 1, 2, 3, 4, 5, 6, 7, 8, 9].map WDEvent.registerError)).2 =
      (1, MAX_CONSECUTIVE_ERRORS) ∧
    (runWD {} (spreadEvents
      [(0, 5001), (6000, 11001), (12000, 17001), (18000, 23001), (24000, 29001),
       (30000, 35001), (36000, 41001), (42000, 47001), (48000, 53001)] ++
      [WDEvent.registerError 54000])).2.1 = 0 := by
  constructor
  · exact C6_error_threshold_and_cooldown.1 {} [0, 1, 2, 3, 4, 5, 6, 7, 8, 9] rfl (by decide)
  · exact C6_error_threshold_and_cooldown.2 {}
      [(0, 5001), (6000, 11001), (12000, 17001), (18000, 23001), (24000, 29001),
       (30000, 35001), (36000, 41001), (42000, 47001), (48000, 53001)] 54000
      rfl (by decide) (by decide)

/-! ## C9: PWM channel allocator invariants -/

/-- The store operations a client can drive (the Pin State Store mutators
and readers reachable from the command surface). -/
inductive PinOp
  | opSetDigital (pin value : Int)
  | opGetDigital (pin : Int)
  | opToggle (pin : Int)
  | opSetPWM (pin value : Int)
  | opGetPWM (pin : Int)
  | opResetAllPins
deriving DecidableEq, Repr

def applyOp (hw : Int → Bool) (s : PinController) : PinOp → PinController
  | PinOp.opSetDigital p v => (s.setDigital p v).2.1
  | PinOp.opGetDigital p => (s.getDigital hw p).2.1
  | PinOp.opToggle p => (s.toggle hw p).2.1
  | PinOp.opSetPWM p v => (s.setPWM p v).2.1
  | PinOp.opGetPWM p => (s.getPWM p).2
  | PinOp.opResetAllPins => s.resetAllPins.2.1

def runOps (hw : Int → Bool) (s : PinController) (ops : List PinOp) : PinController :=
  ops.foldl (applyOp hw) s

/-- Channel-allocator invariant: assigned channels are in `[0, next)`,
pairwise distinct, the counter stays within the 16-channel pool bound, and
every initialized PwmOutput record owns an assignment. -/
structure ChannelInv (s : PinController) : Prop where
  bounds : ∀ p c, mapFind s.pinToPWMChannel p = some c → 0 ≤ c ∧ c < s.nextPWMChannel
  inj : ∀ p q c, mapFind s.pinToPWMChannel p = some c →
    mapFind s.pinToPWMChannel q = some c → p = q
  le16 : s.nextPWMChannel ≤ 16
  nonneg : 0 ≤ s.nextPWMChannel
  pwmHasChannel : ∀ p st, mapFind s.pinStates p = some st → st.isInitialized = true →
    st.mode = PinMode.PWM_OUTPUT → (mapFind s.pinToPWMChannel p).isSome = true

theorem find_insert_cases {α : Type} {m : List (Int × α)} {k : Int} {v : α} {q : Int} {w : α}
    (h : mapFind (mapInsert m k v) q = some w) :
    (q = k ∧ w = v) ∨ (q ≠ k ∧ mapFind m q = some w) := by
  rw [mapFind_mapInsert] at h
  by_cases hk : k = q
  · left
    rw [if_pos hk] at h
    exact ⟨hk.symm, (Option.some_inj.mp h).symm⟩
  · right
    rw [if_neg hk] at h
    exact ⟨fun hh => hk hh.symm, h⟩

theorem emptyController_inv : ChannelInv emptyController := by
  refine ⟨?_, ?_, ?_, ?_, ?_⟩
  · intro p c h
    simp [emptyController, mapFind] at h
  · intro p q c hp hq
    simp [emptyController, mapFind] at hp
  · decide
  · decide
  · intro p st h
    simp [emptyController, mapFind] at h

/-- Inserting a default (uninitialized) record never breaks the invariant. -/
theorem insert_default_inv (s : PinController) (pin : Int) (inv : ChannelInv s) :
    ChannelInv { s with pinStates := mapInsert s.pinStates pin ({} : PinState) } := by
  refine ⟨inv.bounds, inv.inj, inv.le16, inv.nonneg, ?_⟩
  intro p st hfind hinit hmode
  rcases find_insert_cases hfind with ⟨hpq, hst⟩ | ⟨hpq, hold⟩
  · subst hst
    cases hinit
  · exact inv.pwmHasChannel p st hold hinit hmode

/-- The configure-then-write tail of `setPWM` preserves the invariant. -/
theorem configPWM_finish_inv (s1 : PinController) (pin value : Int) (inv1 : ChannelInv s1) :
    ChannelInv ((if (s1.configurePWMOutput pin).1 = true
        then setPWMFinish (s1.configurePWMOutput pin).2.1 pin value (s1.configurePWMOutput pin).2.2
        else (false, (s1.configurePWMOutput pin).2.1, (s1.configurePWMOutput pin).2.2)).2.1) := by
  by_cases hfull : s1.nextPWMChannel ≥ 16
  · have hcfg : s1.configurePWMOutput pin = (false, s1, []) := by
      unfold PinController.configurePWMOutput
      rw [if_pos hfull]
    rw [if_neg (show ¬ (s1.configurePWMOutput pin).1 = true from by rw [hcfg]; simp)]
    rw [hcfg]
    exact inv1
  · have hcfg : s1.configurePWMOutput pin =
        (true,
         { pinStates := mapInsert s1.pinStates pin
             ({ mode := PinMode.PWM_OUTPUT, value := 0, isInitialized := true } : PinState),
           pinToPWMChannel := mapInsert s1.pinToPWMChannel pin s1.nextPWMChannel,
           nextPWMChannel := s1.nextPWMChannel + 1 },
         [HWAction.ledcSetup s1.nextPWMChannel 5000 8, HWAction.ledcAttachPin pin s1.nextPWMChannel,
          HWAction.ledcWrite s1.nextPWMChannel 0]) := by
      unfold PinController.configurePWMOutput
      rw [if_neg hfull]
    rw [if_pos (show (s1.configurePWMOutput pin).1 = true from by rw [hcfg])]
    rw [hcfg]
    dsimp only
    unfold setPWMFinish
    have hch : mapFind (mapInsert s1.pinToPWMChannel pin s1.nextPWMChannel) pin =
        some s1.nextPWMChannel := by simp [mapFind_mapInsert]
    rw [mapIndex_of_find _ _ _ _ hch]
    have hst : mapFind (mapInsert s1.pinStates pin
        ({ mode := PinMode.PWM_OUTPUT, value := 0, isInitialized := true } : PinState)) pin =
        some ({ mode := PinMode.PWM_OUTPUT, value := 0, isInitialized := true } : PinState) := by
      simp [mapFind_mapInsert]
    rw [hst]
    dsimp only
    constructor
    · intro p c hfind
      dsimp only
      rcases find_insert_cases hfind with ⟨hpq, hc⟩ | ⟨hpq, hold⟩
      · subst hc
        exact ⟨inv1.nonneg, by omega⟩
      · have := inv1.bounds p c hold
        exact ⟨this.1, by omega⟩
    · intro p q c hp hq
      rcases find_insert_cases hp with ⟨hpk, hcp⟩ | ⟨hpk, holdp⟩ <;>
        rcases find_insert_cases hq with ⟨hqk, hcq⟩ | ⟨hqk, holdq⟩
      · rw [hpk, hqk]
      · subst hcp
        have := inv1.bounds q _ holdq
        omega
      · subst hcq
        have := inv1.bounds p _ holdp
        omega
      · exact inv1.inj p q c holdp holdq
    · dsimp only
      omega
    · dsimp only
      have := inv1.nonneg
      omega
    · intro p st hfind hinit hmode
      rcases find_insert_cases hfind with ⟨hpk, hst2⟩ | ⟨hpk, hold⟩
      · subst hpk
        simp [mapFind_mapInsert]
      · rcases find_insert_cases hold with ⟨hpk2, _⟩ | ⟨_, hold2⟩
        · exact (hpk hpk2).elim
        · have := inv1.pwmHasChannel p st hold2 hinit hmode
          rw [mapFind_mapInsert, if_neg (fun h => hpk h.symm)]
          exact this

/-- `setPWM` preserves the channel-allocator invariant. -/
theorem setPWM_preserves (s : PinController) (pin value : Int) (inv : ChannelInv s) :
    ChannelInv (s.setPWM pin value).2.1 := by
  unfold PinController.setPWM
  by_cases hv : isValidPin pin = true
  case neg =>
    rw [if_pos (by simp [hv])]
    exact inv
  rw [if_neg (by simp [hv])]
  by_cases hval : value < 0 ∨ value > 255
  · rw [if_pos hval]
    exact inv
  rw [if_neg hval]
  cases hfind : mapFind s.pinStates pin with
  | none =>
    rw [mapIndex_of_none _ _ _ hfind]
    rw [if_pos (by simp)]
    exact configPWM_finish_inv _ pin value (insert_default_inv s pin inv)
  | some st =>
    rw [mapIndex_of_find _ _ _ _ hfind]
    by_cases hcond : ¬ st.isInitialized = true ∨ ¬ st.mode = PinMode.PWM_OUTPUT
    · rw [if_pos hcond]
      exact configPWM_finish_inv _ pin value inv
    · rw [if_neg hcond]
      push_neg at hcond
      obtain ⟨hinit, hmode⟩ := hcond
      unfold setPWMFinish
      have hsome := inv.pwmHasChannel pin st hfind hinit hmode
      obtain ⟨c, hc⟩ := Option.isSome_iff_exists.mp hsome
      rw [mapIndex_of_find _ _ _ _ hc, hfind]
      refine ⟨inv.bounds, inv.inj, inv.le16, inv.nonneg, ?_⟩
      intro p st2 hfind2 hinit2 hmode2
      rcases find_insert_cases hfind2 with ⟨hpk, _⟩ | ⟨hpk, hold⟩
      · subst hpk
        rw [hc]
        rfl
      · exact inv.pwmHasChannel p st2 hold hinit2 hmode2

/-- `setDigital` touches only the digital record of the addressed pin:
the channel map and counter are unchanged, and any record it writes is
non-PWM. -/
theorem setDigital_shape (s : PinController) (pin value : Int) :
    (s.setDigital pin value).2.1.pinToPWMChannel = s.pinToPWMChannel ∧
    (s.setDigital pin value).2.1.nextPWMChannel = s.nextPWMChannel ∧
    (∀ q st, mapFind (s.setDigital pin value).2.1.pinStates q = some st →
      mapFind s.pinStates q = some st ∨ ¬ st.mode = PinMode.PWM_OUTPUT) := by
  unfold PinController.setDigital
  by_cases hv : isValidPin pin = true
  case neg =>
    rw [if_pos (by simp [hv])]
    exact ⟨rfl, rfl, fun q st h => Or.inl h⟩
  rw [if_neg (by simp [hv])]
  by_cases hval : value ≠ 0 ∧ value ≠ 1
  · rw [if_pos hval]
    exact ⟨rfl, rfl, fun q st h => Or.inl h⟩
  rw [if_neg hval]
  cases hfind : mapFind s.pinStates pin with
  | none =>
    rw [mapIndex_of_none _ _ _ hfind]
    rw [if_pos (by simp)]
    unfold PinController.configureDigitalOutput
    simp only [if_pos rfl]
    unfold setDigitalFinish
    refine ⟨rfl, rfl, ?_⟩
    intro q st h
    rcases find_insert_cases h with ⟨hqk, hst⟩ | ⟨hqk, hold⟩
    · subst hst
      right
      have : ((mapFind (mapInsert (mapInsert s.pinStates pin ({} : PinState)) pin
          ({ mode := PinMode.DIGITAL_OUTPUT, value := 0, isInitialized := true } : PinState))
          pin).getD {}).mode = PinMode.DIGITAL_OUTPUT := by
        simp [mapFind_mapInsert]
      rw [this]
      simp
    · rcases find_insert_cases hold with ⟨hqk2, _⟩ | ⟨_, hold2⟩
      · exact (hqk hqk2).elim
      · rcases find_insert_cases hold2 with ⟨hqk3, _⟩ | ⟨_, hold3⟩
        · exact (hqk hqk3).elim
        · exact Or.inl hold3
  | some st0 =>
    rw [mapIndex_of_find _ _ _ _ hfind]
    by_cases hcond : ¬ st0.isInitialized = true ∨ ¬ st0.mode = PinMode.DIGITAL_OUTPUT
    · rw [if_pos hcond]
      unfold PinController.configureDigitalOutput
      simp only [if_pos rfl]
      unfold setDigitalFinish
      refine ⟨rfl, rfl, ?_⟩
      intro q st h
      rcases find_insert_cases h with ⟨hqk, hst⟩ | ⟨hqk, hold⟩
      · subst hst
        right
        have : ((mapFind (mapInsert s.pinStates pin
            ({ mode := PinMode.DIGITAL_OUTPUT, value := 0, isInitialized := true } : PinState))
            pin).getD {}).mode = PinMode.DIGITAL_OUTPUT := by
          simp [mapFind_mapInsert]
        rw [this]
        simp
      · rcases find_insert_cases hold with ⟨hqk2, _⟩ | ⟨_, hold2⟩
        · exact (hqk hqk2).elim
        · exact Or.inl hold2
    · rw [if_neg hcond]
      push_neg at hcond
      obtain ⟨hinit, hmode⟩ := hcond
      unfold setDigitalFinish
      refine ⟨rfl, rfl, ?_⟩
      intro q st h
      rcases find_insert_cases h with ⟨hqk, hst⟩ | ⟨hqk, hold⟩
      · subst hst
        right
        rw [hfind]
        simp [hmode]
      · exact Or.inl hold

theorem setDigital_preserves (s : PinController) (pin value : Int) (inv : ChannelInv s) :
    ChannelInv (s.setDigital pin value).2.1 := by
  obtain ⟨hch, hnext, hrec⟩ := setDigital_shape s pin value
  refine ⟨?_, ?_, ?_, ?_, ?_⟩
  · intro p c h
    rw [hch] at h
    rw [hnext]
    exact inv.bounds p c h
  · intro p q c hp hq
    rw [hch] at hp hq
    exact inv.inj p q c hp hq
  · rw [hnext]
    exact inv.le16
  · rw [hnext]
    exact inv.nonneg
  · intro p st h hinit hmode
    rw [hch]
    rcases hrec p st h with hold | hnm
    · exact inv.pwmHasChannel p st hold hinit hmode
    · exact (hnm hmode).elim

theorem toggle_preserves (s : PinController) (hw : Int → Bool) (pin : Int)
    (inv : ChannelInv s) : ChannelInv (s.toggle hw pin).2.1 := by
  unfold PinController.toggle
  by_cases hv : isValidPin pin = true
  case neg =>
    rw [if_pos (by simp [hv])]
    exact inv
  rw [if_neg (by simp [hv])]
  dsimp only
  rw [getDigital_frame s hw pin]
  by_cases hlt : (s.getDigital hw pin).1 < 0
  · rw [if_pos hlt]
    exact inv
  · rw [if_neg hlt]
    exact setDigital_preserves s pin _ inv

theorem resetAllPins_inv (s : PinController) : ChannelInv s.resetAllPins.2.1 := by
  unfold PinController.resetAllPins
  refine ⟨?_, ?_, ?_, ?_, ?_⟩
  · intro p c h
    simp [mapFind] at h
  · intro p q c hp hq
    simp [mapFind] at hp
  · norm_num
  · norm_num
  · intro p st h
    simp [mapFind] at h

theorem applyOp_preserves (hw : Int → Bool) (s : PinController) (op : PinOp)
    (inv : ChannelInv s) : ChannelInv (applyOp hw s op) := by
  cases op with
  | opSetDigital p v => exact setDigital_preserves s p v inv
  | opGetDigital p =>
    show ChannelInv (s.getDigital hw p).2.1
    rw [getDigital_frame]
    exact inv
  | opToggle p => exact toggle_preserves s hw p inv
  | opSetPWM p v => exact setPWM_preserves s p v inv
  | opGetPWM p =>
    show ChannelInv (s.getPWM p).2
    rw [getPWM_frame]
    exact inv
  | opResetAllPins => exact resetAllPins_inv s

theorem runOps_preserves (hw : Int → Bool) (ops : List PinOp) :
    ∀ s : PinController, ChannelInv s → ChannelInv (runOps hw s ops) := by
  induction ops with
  | nil => intro s inv; exact inv
  | cons op rest ih =>
    intro s inv
    exact ih (applyOp hw s op) (applyOp_preserves hw s op inv)

/-- C9: in every store reachable from the empty store by a sequence of
store operations, PwmOutput records hold pairwise distinct channels, every
initialized PwmOutput record owns a channel, channel values stay within
the 16-channel hardware pool (counter ≤ 16, channels in `[0, 16)`), no
assigned channel equals the allocator's next handout, and when the pool is
not exhausted the allocator hands the fresh channel `nextPWMChannel` —
never one still referenced. -/
theorem C9_channel_invariants_hold (hw : Int → Bool) (ops : List PinOp) (s : PinController)
    (hs : s = runOps hw emptyController ops) :
    (∀ p q stp stq cp cq,
      mapFind s.pinStates p = some stp → stp.isInitialized = true →
      stp.mode = PinMode.PWM_OUTPUT →
      mapFind s.pinStates q = some stq → stq.isInitialized = true →
      stq.mode = PinMode.PWM_OUTPUT →
      mapFind s.pinToPWMChannel p = some cp → mapFind s.pinToPWMChannel q = some cq →
      p ≠ q → cp ≠ cq) ∧
    (∀ p st, mapFind s.pinStates p = some st → st.isInitialized = true →
      st.mode = PinMode.PWM_OUTPUT → (mapFind s.pinToPWMChannel p).isSome = true) ∧
    s.nextPWMChannel ≤ 16 ∧
    (∀ p c, mapFind s.pinToPWMChannel p = some c → 0 ≤ c ∧ c < 16) ∧
    (∀ p c, mapFind s.pinToPWMChannel p = some c → c ≠ s.nextPWMChannel) ∧
    (s.nextPWMChannel < 16 → ∀ p,
      (s.configurePWMOutput p).1 = true ∧
      mapFind (s.configurePWMOutput p).2.1.pinToPWMChannel p = some s.nextPWMChannel) := by
  subst hs
  have inv := runOps_preserves hw ops emptyController emptyController_inv
  refine ⟨?_, inv.pwmHasChannel, inv.le16, ?_, ?_, ?_⟩
  · intro p q stp stq cp cq _ _ _ _ _ _ hp hq hpq hcc
    subst hcc
    exact hpq (inv.inj p q cp hp hq)
  · intro p c h
    have := inv.bounds p c h
    have := inv.le16
    constructor <;> omega
  · intro p c h
    have := inv.bounds p c h
    omega
  · intro hlt p
    have hcfg : (runOps hw emptyController ops).configurePWMOutput p =
        (true,
         { pinStates := mapInsert (runOps hw emptyController ops).pinStates p
             ({ mode := PinMode.PWM_OUTPUT, value := 0, isInitialized := true } : PinState),
           pinToPWMChannel := mapInsert (runOps hw emptyController ops).pinToPWMChannel p
             (runOps hw emptyController ops).nextPWMChannel,
           nextPWMChannel := (runOps hw emptyController ops).nextPWMChannel + 1 },
         [HWAction.ledcSetup (runOps hw emptyController ops).nextPWMChannel 5000 8,
          HWAction.ledcAttachPin p (runOps hw emptyController ops).nextPWMChannel,
          HWAction.ledcWrite (runOps hw emptyController ops).nextPWMChannel 0]) := by
      unfold PinController.configurePWMOutput
      rw [if_neg (by omega)]
    rw [hcfg]
    exact ⟨rfl, by simp [mapFind_mapInsert]⟩

/-- C9 witness: two allocations from the empty store give pins 4 and 5
distinct channels, within the pool bound. -/
theorem C9_witness :
    ((0 : Int) ≠ 1 ∧
     (runOps hwLow emptyController [PinOp.opSetPWM 4 10, PinOp.opSetPWM 5 20]).nextPWMChannel ≤ 16) := by
  have h := C9_channel_invariants_hold hwLow [PinOp.opSetPWM 4 10, PinOp.opSetPWM 5 20]
    (runOps hwLow emptyController [PinOp.opSetPWM 4 10, PinOp.opSetPWM 5 20]) rfl
  refine ⟨?_, h.2.2.1⟩
  exact h.1 4 5 ⟨PinMode.PWM_OUTPUT, 10, true⟩ ⟨PinMode.PWM_OUTPUT, 20, true⟩ 0 1
    (by decide) rfl rfl (by decide) rfl rfl (by decide) (by decide) (by decide)

/-! ## C8: response round trip -/

/-- Shape invariant of every valid parser output: whitelisted pin and
in-range value for the pin commands, untouched defaults elsewhere. -/
def validParsed (cmd : Command) : Bool :=
  match cmd.type with
  | CommandType.INVALID => false
  | CommandType.SET => isValidPin cmd.pin && (cmd.value == 0 || cmd.value == 1)
  | CommandType.PWM => isValidPin cmd.pin && decide (0 ≤ cmd.value) && decide (cmd.value ≤ 255)
  | CommandType.GET => isValidPin cmd.pin && cmd.value == -1
  | CommandType.TOGGLE => isValidPin cmd.pin && cmd.value == -1
  | _ => cmd.pin == -1 && cmd.value == -1

/-- The structured message rebuilt from the rendered `command`/`pin`/`value`
fields of the response, as the round-trip property prescribes (the result
value rendered for a value-carrying command is the command's own value,
which is what the executor passes for SET/PWM). -/
def respDoc (cmd : Command) (success : Bool) (message : List Char) : JsonCmdDoc :=
  let r := generateResponse cmd success message cmd.value
  { cmd := some r.command, pin := r.pin, value := r.value }

theorem parseJSON_validParsed (d : JsonCmdDoc) (h : (parseJSON d).isValid = true) :
    validParsed (parseJSON d) = true := by
  unfold parseJSON at *
  cases hcmd : d.cmd with
  | none =>
    try rw [hcmd] at h
    simp [Command.isValid] at h
  | some cmdStr0 =>
    try rw [hcmd] at h
    try rw [hcmd]
    dsimp only at h ⊢
    by_cases hty : stringToCommandType (cmdStr0.map Char.toUpper) = CommandType.INVALID
    · rw [if_pos hty] at h
      simp [Command.isValid] at h
    · rw [if_neg hty] at h ⊢
      revert h
      cases htyv : stringToCommandType (cmdStr0.map Char.toUpper) <;> intro h
      · exact (hty htyv).elim
      · -- SET
        cases hpin : d.pin with
        | none =>
          try rw [hpin] at h
          simp [Command.isValid] at h
        | some pin =>
          try rw [hpin] at h
          try rw [hpin]
          dsimp only at h ⊢
          by_cases hvp : isValidPin pin = true
          swap
          · rw [if_pos (by simp [hvp])] at h
            simp [Command.isValid] at h
          · rw [if_neg (by simp [hvp])] at h ⊢
            rw [if_pos (Or.inl rfl)] at h ⊢
            cases hval : d.value with
            | none =>
              try rw [hval] at h
              simp [Command.isValid] at h
            | some value =>
              try rw [hval] at h
              try rw [hval]
              dsimp only at h ⊢
              by_cases hbad : CommandType.SET = CommandType.SET ∧ value ≠ 0 ∧ value ≠ 1
              · rw [if_pos hbad] at h
                simp [Command.isValid] at h
              · rw [if_neg hbad] at h ⊢
                rw [if_neg (by simp)] at h ⊢
                have h01 : value = 0 ∨ value = 1 := by
                  by_cases h0 : value = 0
                  · exact Or.inl h0
                  · by_cases h1 : value = 1
                    · exact Or.inr h1
                    · exact (hbad ⟨rfl, h0, h1⟩).elim
                rcases h01 with h01 | h01 <;> simp [validParsed, hvp, h01]
      · -- GET
        cases hpin : d.pin with
        | none =>
          try rw [hpin] at h
          simp [Command.isValid] at h
        | some pin =>
          try rw [hpin] at h
          try rw [hpin]
          dsimp only at h ⊢
          by_cases hvp : isValidPin pin = true
          swap
          · rw [if_pos (by simp [hvp])] at h
            simp [Command.isValid] at h
          · rw [if_neg (by simp [hvp])] at h ⊢
            rw [if_neg (by simp)] at h ⊢
            simp [validParsed, hvp]
      · -- TOGGLE
        cases hpin : d.pin with
        | none =>
          try rw [hpin] at h
          simp [Command.isValid] at h
        | some pin =>
          try rw [hpin] at h
          try rw [hpin]
          dsimp only at h ⊢
          by_cases hvp : isValidPin pin = true
          swap
          · rw [if_pos (by simp [hvp])] at h
            simp [Command.isValid] at h
          · rw [if_neg (by simp [hvp])] at h ⊢
            rw [if_neg (by simp)] at h ⊢
            simp [validParsed, hvp]
      · -- PWM
        cases hpin : d.pin with
        | none =>
          try rw [hpin] at h
          simp [Command.isValid] at h
        | some pin =>
          try rw [hpin] at h
          try rw [hpin]
          dsimp only at h ⊢
          by_cases hvp : isValidPin pin = true
          swap
          · rw [if_pos (by simp [hvp])] at h
            simp [Command.isValid] at h
          · rw [if_neg (by simp [hvp])] at h ⊢
            rw [if_pos (Or.inr rfl)] at h ⊢
            cases hval : d.value with
            | none =>
              try rw [hval] at h
              simp [Command.isValid] at h
            | some value =>
              try rw [hval] at h
              try rw [hval]
              dsimp only at h ⊢
              rw [if_neg (by simp)] at h ⊢
              by_cases hbad : CommandType.PWM = CommandType.PWM ∧ (value < 0 ∨ value > 255)
              · rw [if_pos hbad] at h
                simp [Command.isValid] at h
              · rw [if_neg hbad] at h ⊢
                have hrange : 0 ≤ value ∧ value ≤ 255 := by
                  constructor <;> (by_contra hc; exact hbad ⟨rfl, by omega⟩)
                simp [validParsed, hvp, hrange.1, hrange.2]
      · -- STATUS
        simp [validParsed]
      · -- RESET
        simp [validParsed]
      · -- RESET_PINS
        simp [validParsed]
      · -- HELP
        simp [validParsed]
theorem textPinValueChecks_validParsed (ty : CommandType) (pin value : Int)
    (hty : ty = CommandType.SET ∨ ty = CommandType.PWM)
    (h : (textPinValueChecks ty pin value).isValid = true) :
    validParsed (textPinValueChecks ty pin value) = true := by
  unfold textPinValueChecks at *
  by_cases hvp : isValidPin pin = true
  swap
  · rw [if_pos (by simp [hvp])] at h
    simp [Command.isValid] at h
  · rw [if_neg (by simp [hvp])] at h ⊢
    rcases hty with hty | hty <;> subst hty
    · by_cases hbad : CommandType.SET = CommandType.SET ∧ value ≠ 0 ∧ value ≠ 1
      · rw [if_pos hbad] at h
        simp [Command.isValid] at h
      · rw [if_neg hbad] at h ⊢
        rw [if_neg (by simp)] at h ⊢
        have h01 : value = 0 ∨ value = 1 := by
          by_cases h0 : value = 0
          · exact Or.inl h0
          · by_cases h1 : value = 1
            · exact Or.inr h1
            · exact (hbad ⟨rfl, h0, h1⟩).elim
        rcases h01 with h01 | h01 <;> simp [validParsed, hvp, h01]
    · rw [if_neg (by simp)] at h ⊢
      by_cases hbad : CommandType.PWM = CommandType.PWM ∧ (value < 0 ∨ value > 255)
      · rw [if_pos hbad] at h
        simp [Command.isValid] at h
      · rw [if_neg hbad] at h ⊢
        have hrange : 0 ≤ value ∧ value ≤ 255 := by
          constructor <;> (by_contra hc; exact hbad ⟨rfl, by omega⟩)
        simp [validParsed, hvp, hrange.1, hrange.2]

theorem textPinValueCase_validParsed (ty : CommandType) (params : List Char)
    (hty : ty = CommandType.SET ∨ ty = CommandType.PWM)
    (h : (textPinValueCase ty params).isValid = true) :
    validParsed (textPinValueCase ty params) = true := by
  unfold textPinValueCase at *
  by_cases hsp : params.dropWhile (fun c => c ≠ ' ') = []
  · rw [if_pos hsp] at h
    simp [Command.isValid] at h
  · rw [if_neg hsp] at h ⊢
    exact textPinValueChecks_validParsed ty _ _ hty h

theorem textPinCheck_validParsed (ty : CommandType) (pin : Int)
    (h : (textPinCheck ty pin).isValid = true) :
    (ty = CommandType.GET ∨ ty = CommandType.TOGGLE) →
    validParsed (textPinCheck ty pin) = true := by
  intro hty
  unfold textPinCheck at *
  by_cases hvp : isValidPin pin = true
  swap
  · rw [if_pos (by simp [hvp])] at h
    simp [Command.isValid] at h
  · rw [if_neg (by simp [hvp])] at h ⊢
    rcases hty with hty | hty <;> subst hty <;> simp [validParsed, hvp]

theorem textPinCase_validParsed (ty : CommandType) (params : List Char)
    (hty : ty = CommandType.GET ∨ ty = CommandType.TOGGLE)
    (h : (textPinCase ty params).isValid = true) :
    validParsed (textPinCase ty params) = true := by
  unfold textPinCase at *
  by_cases hlen : params.length = 0
  · rw [if_pos hlen] at h
    simp [Command.isValid] at h
  · rw [if_neg hlen] at h ⊢
    exact textPinCheck_validParsed ty _ h hty

theorem parseText_validParsed (l : List Char) (h : (parseText l).isValid = true) :
    validParsed (parseText l) = true := by
  unfold parseText at *
  dsimp only at h ⊢
  by_cases hty0 : stringToCommandType
      (trimChars ((l.map Char.toUpper).takeWhile (fun c => c ≠ ' '))) = CommandType.INVALID
  · rw [if_pos hty0] at h
    simp [Command.isValid] at h
  · rw [if_neg hty0] at h ⊢
    revert h
    cases htyv : stringToCommandType
        (trimChars ((l.map Char.toUpper).takeWhile (fun c => c ≠ ' '))) <;> intro h
    · exact (hty0 htyv).elim
    · exact textPinValueCase_validParsed _ _ (Or.inl rfl) h
    · exact textPinCase_validParsed _ _ (Or.inl rfl) h
    · exact textPinCase_validParsed _ _ (Or.inr rfl) h
    · exact textPinValueCase_validParsed _ _ (Or.inr rfl) h
    · simp [validParsed]
    · simp [validParsed]
    · simp [validParsed]
    · simp [validParsed]

/-- Every valid output of `parse` satisfies the parser-output shape
invariant. -/
theorem parse_validParsed (input : ParseInput) (h : (parse input).isValid = true) :
    validParsed (parse input) = true := by
  cases input with
  | text s =>
    unfold parse at *
    dsimp only at h ⊢
    by_cases hlen : s.length = 0
    · rw [if_pos hlen] at h
      simp [Command.isValid] at h
    · rw [if_neg hlen] at h ⊢
      exact parseText_validParsed _ h
  | json d => exact parseJSON_validParsed d h

/-- Re-parsing a structured message built from the rendered
`command`/`pin`/`value` fields of any valid parsed command reproduces the
command (same type, pin and value). -/
theorem reparse_of_validParsed (cmd : Command) (success : Bool) (message : List Char)
    (h : validParsed cmd = true) :
    (parseJSON (respDoc cmd success message)).type = cmd.type ∧
    (parseJSON (respDoc cmd success message)).pin = cmd.pin ∧
    (parseJSON (respDoc cmd success message)).value = cmd.value := by
  unfold validParsed at h
  revert h
  cases hty : cmd.type <;> intro h <;> dsimp only at h
  · -- INVALID
    simp at h
  · -- SET
    simp only [Bool.and_eq_true, Bool.or_eq_true, beq_iff_eq] at h
    obtain ⟨hvp, hval⟩ := h
    have hpin0 : 0 ≤ cmd.pin := isValidPin_nonneg hvp
    have hval0 : 0 ≤ cmd.value := by rcases hval with h1 | h1 <;> omega
    have hdoc : respDoc cmd success message =
        { cmd := some ("SET".toList), pin := some cmd.pin, value := some cmd.value } := by
      unfold respDoc generateResponse
      rw [hty]
      try dsimp only
      rw [if_pos hpin0, if_pos hval0]
      simp [commandTypeToString]
    rw [hdoc]
    unfold parseJSON
    try dsimp only
    rw [show (("SET".toList : List Char).map Char.toUpper) = "SET".toList from by decide]
    rw [show stringToCommandType ("SET".toList : List Char) = CommandType.SET from by decide]
    rw [if_neg (by decide)]
    try dsimp only
    rw [if_neg (by simp [hvp])]
    rw [if_pos (Or.inl rfl)]
    try dsimp only
    rw [if_neg (show ¬ (CommandType.SET = CommandType.SET ∧ cmd.value ≠ 0 ∧ cmd.value ≠ 1) from by
      rcases hval with h1 | h1 <;> simp [h1])]
    rw [if_neg (by simp)]
    simp [hty]
  · -- GET
    simp only [Bool.and_eq_true, beq_iff_eq] at h
    obtain ⟨hvp, hval⟩ := h
    have hpin0 : 0 ≤ cmd.pin := isValidPin_nonneg hvp
    have hvalneg : ¬ 0 ≤ cmd.value := by omega
    have hdoc : respDoc cmd success message =
        { cmd := some ("GET".toList), pin := some cmd.pin, value := none } := by
      unfold respDoc generateResponse
      rw [hty]
      try dsimp only
      rw [if_pos hpin0, if_neg hvalneg]
      simp [commandTypeToString]
    rw [hdoc]
    unfold parseJSON
    try dsimp only
    rw [show (("GET".toList : List Char).map Char.toUpper) = "GET".toList from by decide]
    rw [show stringToCommandType ("GET".toList : List Char) = CommandType.GET from by decide]
    rw [if_neg (by decide)]
    try dsimp only
    rw [if_neg (by simp [hvp])]
    rw [if_neg (by simp)]
    simp [hty, hval]
  · -- TOGGLE
    simp only [Bool.and_eq_true, beq_iff_eq] at h
    obtain ⟨hvp, hval⟩ := h
    have hpin0 : 0 ≤ cmd.pin := isValidPin_nonneg hvp
    have hvalneg : ¬ 0 ≤ cmd.value := by omega
    have hdoc : respDoc cmd success message =
        { cmd := some ("TOGGLE".toList), pin := some cmd.pin, value := none } := by
      unfold respDoc generateResponse
      rw [hty]
      try dsimp only
      rw [if_pos hpin0, if_neg hvalneg]
      simp [commandTypeToString]
    rw [hdoc]
    unfold parseJSON
    try dsimp only
    rw [show (("TOGGLE".toList : List Char).map Char.toUpper) = "TOGGLE".toList from by decide]
    rw [show stringToCommandType ("TOGGLE".toList : List Char) = CommandType.TOGGLE from by decide]
    rw [if_neg (by decide)]
    try dsimp only
    rw [if_neg (by simp [hvp])]
    rw [if_neg (by simp)]
    simp [hty, hval]
  · -- PWM
    simp only [Bool.and_eq_true, decide_eq_true_eq] at h
    obtain ⟨⟨hvp, hv0⟩, hv255⟩ := h
    have hpin0 : 0 ≤ cmd.pin := isValidPin_nonneg hvp
    have hdoc : respDoc cmd success message =
        { cmd := some ("PWM".toList), pin := some cmd.pin, value := some cmd.value } := by
      unfold respDoc generateResponse
      rw [hty]
      try dsimp only
      rw [if_pos hpin0, if_pos hv0]
      simp [commandTypeToString]
    rw [hdoc]
    unfold parseJSON
    try dsimp only
    rw [show (("PWM".toList : List Char).map Char.toUpper) = "PWM".toList from by decide]
    rw [show stringToCommandType ("PWM".toList : List Char) = CommandType.PWM from by decide]
    rw [if_neg (by decide)]
    try dsimp only
    rw [if_neg (by simp [hvp])]
    rw [if_pos (Or.inr rfl)]
    try dsimp only
    rw [if_neg (by simp)]
    rw [if_neg (show ¬ (CommandType.PWM = CommandType.PWM ∧ (cmd.value < 0 ∨ cmd.value > 255)) from by
      simp
      omega)]
    simp [hty]
  · -- STATUS
    simp only [Bool.and_eq_true, beq_iff_eq] at h
    obtain ⟨hpin, hval⟩ := h
    have hpinneg : ¬ 0 ≤ cmd.pin := by omega
    have hvalneg : ¬ 0 ≤ cmd.value := by omega
    have hdoc : respDoc cmd success message =
        { cmd := some ("STATUS".toList), pin := none, value := none } := by
      unfold respDoc generateResponse
      rw [hty]
      try dsimp only
      rw [if_neg hpinneg, if_neg hvalneg]
      simp [commandTypeToString]
    rw [hdoc]
    unfold parseJSON
    try dsimp only
    rw [show (("STATUS".toList : List Char).map Char.toUpper) = "STATUS".toList from by decide]
    rw [show stringToCommandType ("STATUS".toList : List Char) = CommandType.STATUS from by decide]
    rw [if_neg (by decide)]
    try dsimp only
    simp [hty, hpin, hval]
  · -- RESET
    simp only [Bool.and_eq_true, beq_iff_eq] at h
    obtain ⟨hpin, hval⟩ := h
    have hpinneg : ¬ 0 ≤ cmd.pin := by omega
    have hvalneg : ¬ 0 ≤ cmd.value := by omega
    have hdoc : respDoc cmd success message =
        { cmd := some ("RESET".toList), pin := none, value := none } := by
      unfold respDoc generateResponse
      rw [hty]
      try dsimp only
      rw [if_neg hpinneg, if_neg hvalneg]
      simp [commandTypeToString]
    rw [hdoc]
    unfold parseJSON
    try dsimp only
    rw [show (("RESET".toList : List Char).map Char.toUpper) = "RESET".toList from by decide]
    rw [show stringToCommandType ("RESET".toList : List Char) = CommandType.RESET from by decide]
    rw [if_neg (by decide)]
    try dsimp only
    simp [hty, hpin, hval]
  · -- RESET_PINS
    simp only [Bool.and_eq_true, beq_iff_eq] at h
    obtain ⟨hpin, hval⟩ := h
    have hpinneg : ¬ 0 ≤ cmd.pin := by omega
    have hvalneg : ¬ 0 ≤ cmd.value := by omega
    have hdoc : respDoc cmd success message =
        { cmd := some ("RESET_PINS".toList), pin := none, value := none } := by
      unfold respDoc generateResponse
      rw [hty]
      try dsimp only
      rw [if_neg hpinneg, if_neg hvalneg]
      simp [commandTypeToString]
    rw [hdoc]
    unfold parseJSON
    try dsimp only
    rw [show (("RESET_PINS".toList : List Char).map Char.toUpper) = "RESET_PINS".toList from by decide]
    rw [show stringToCommandType ("RESET_PINS".toList : List Char) = CommandType.RESET_PINS from by decide]
    rw [if_neg (by decide)]
    try dsimp only
    simp [hty, hpin, hval]
  · -- HELP
    simp only [Bool.and_eq_true, beq_iff_eq] at h
    obtain ⟨hpin, hval⟩ := h
    have hpinneg : ¬ 0 ≤ cmd.pin := by omega
    have hvalneg : ¬ 0 ≤ cmd.value := by omega
    have hdoc : respDoc cmd success message =
        { cmd := some ("HELP".toList), pin := none, value := none } := by
      unfold respDoc generateResponse
      rw [hty]
      try dsimp only
      rw [if_neg hpinneg, if_neg hvalneg]
      simp [commandTypeToString]
    rw [hdoc]
    unfold parseJSON
    try dsimp only
    rw [show (("HELP".toList : List Char).map Char.toUpper) = "HELP".toList from by decide]
    rw [show stringToCommandType ("HELP".toList : List Char) = CommandType.HELP from by decide]
    rw [if_neg (by decide)]
    try dsimp only
    simp [hty, hpin, hval]

/-- C8: every input that `parse` maps to a valid command, rendered through
`generateResponse` and re-parsed from the rendered `command`/`pin`/`value`
fields, yields an equivalent command (same type, pin and value),
irrespective of the success flag and caller message used in rendering. -/
theorem C8_render_reparse_roundtrip (input : ParseInput) (success : Bool)
    (message : List Char) (h : (parse input).isValid = true) :
    (parseJSON (respDoc (parse input) success message)).type = (parse input).type ∧
    (parseJSON (respDoc (parse input) success message)).pin = (parse input).pin ∧
    (parseJSON (respDoc (parse input) success message)).value = (parse input).value :=
  reparse_of_validParsed (parse input) success message (parse_validParsed input h)

/-- C8 witness: the text line "SET 13 1". -/
theorem C8_witness :
    (parse (ParseInput.text "SET 13 1".toList)).isValid = true ∧
    (parseJSON (respDoc (parse (ParseInput.text "SET 13 1".toList)) true
        "Pin set successfully".toList)).type = (parse (ParseInput.text "SET 13 1".toList)).type ∧
    (parseJSON (respDoc (parse (ParseInput.text "SET 13 1".toList)) true
        "Pin set successfully".toList)).pin = (parse (ParseInput.text "SET 13 1".toList)).pin ∧
    (parseJSON (respDoc (parse (ParseInput.text "SET 13 1".toList)) true
        "Pin set successfully".toList)).value = (parse (ParseInput.text "SET 13 1".toList)).value := by
  refine ⟨by decide, ?_⟩
  exact C8_render_reparse_roundtrip (ParseInput.text "SET 13 1".toList) true
    "Pin set successfully".toList (by decide)

end ESPRemote
